import Mathlib

/-!
Verification development for the client-side PDF report generator
(`src/frontend/src/lib/generateAnalysisPdf.ts`).

The TypeScript source is shallowly embedded below:
* pure text wrapping (`wrapLine`) is embedded over `List Char` with the
  canvas text measurer abstracted as a function `List Char → ℚ`
  (`measureText` returns a float width; we model widths as rationals);
* the canvas/cursor page state machine (`createPage`, `commitPage`,
  `ensureSpace`, `drawParagraph`, `drawBulletList`, `drawImagePage`,
  `generateAnalysisPdf`) is embedded as explicit state passing over a
  `GenSt` record holding the committed pages, the active canvas (a list
  of paint events) and the write cursor;
* fallible browser operations (2D-context acquisition, canvas→PNG
  conversion, image loading) are modelled with an `Env` record and
  `Except String` results.
-/

namespace AutoNote

/-- Page/layout constants from the source (all integer-valued). -/
def PAGE_WIDTH : ℕ := 1190
def PAGE_HEIGHT : ℕ := 1684
def MARGIN_X : ℕ := 80
def MARGIN_TOP : ℕ := 80
def MARGIN_BOTTOM : ℕ := 100
def SECTION_GAP : ℕ := 32

/-- A4 output page size in points (595.28 × 841.89), exact as rationals. -/
def PDF_PAGE_WIDTH : ℚ := 59528 / 100
def PDF_PAGE_HEIGHT : ℚ := 84189 / 100

def HEADING_COLOR : String := "#111827"
def BODY_COLOR : String := "#1f2937"
def MUTED_COLOR : String := "#6b7280"

def PDF_FONT_FAMILY : String := "NotoSansTCPdf"
def FONT_STACK : String :=
  PDF_FONT_FAMILY ++ ", 'Noto Sans TC', 'PingFang TC', 'Microsoft JhengHei', 'Heiti TC', sans-serif"

/-- `buildFont(size, weight = 400)` from the source. -/
def buildFont (size : ℕ) (weight : ℕ := 400) : String :=
  (if weight = 400 then "" else toString weight ++ " ") ++ toString size ++ "px " ++ FONT_STACK

/-- Bottom content boundary: `PAGE_HEIGHT - MARGIN_BOTTOM` (= 1584). -/
def bottomY : ℕ := PAGE_HEIGHT - MARGIN_BOTTOM

/-! ## Text wrapping (`wrapLine`, source lines 141–169) -/

/-- `text.replace(/\r\n/g, "\n").replace(/\r/g, "\n")`: both passes
together normalize every `\r\n` pair and every lone `\r` to `\n`. -/
def normalizeNewlines : List Char → List Char
  | [] => []
  | [c] => [if c = '\r' then '\n' else c]
  | c :: d :: rest =>
    if c = '\r' then
      if d = '\n' then '\n' :: normalizeNewlines rest
      else '\n' :: normalizeNewlines (d :: rest)
    else c :: normalizeNewlines (d :: rest)

/-- `sanitized.split("\n")`: n separators yield n+1 segments;
`"".split("\n")` is `[""]`. -/
def splitNL : List Char → List (List Char)
  | [] => [[]]
  | c :: rest =>
    if c = '\n' then [] :: splitNL rest
    else
      match splitNL rest with
      | s :: ss => (c :: s) :: ss
      | [] => [[c]]

/-- The inner character loop of `wrapLine` over one hard-newline segment:
given the accumulated `current` line and the remaining characters, returns
the committed lines together with the final value of `current`. -/
def wrapGo (m : List Char → ℚ) (w : ℚ) : List Char → List Char → List (List Char) × List Char
  | current, [] => ([], current)
  | current, c :: rest =>
    if m (current ++ [c]) ≤ w ∨ current = [] then
      wrapGo m w (current ++ [c]) rest
    else
      ((current :: (wrapGo m w (if c = ' ' then [] else [c]) rest).1),
       (wrapGo m w (if c = ' ' then [] else [c]) rest).2)

/-- One segment of `wrapLine`: run the loop, then
`if (current) lines.push(current); else if (rawLine.length === 0) lines.push("")`. -/
def wrapSeg (m : List Char → ℚ) (w : ℚ) (rawLine : List Char) : List (List Char) :=
  let r := wrapGo m w [] rawLine
  if r.2 ≠ [] then r.1 ++ [r.2]
  else if rawLine = [] then r.1 ++ [[]]
  else r.1

/-- `wrapLine` on character lists: early return `[""]` for empty text,
otherwise normalize newlines, split on hard newlines, and wrap each
segment; the shared `lines` array is the concatenation of the
per-segment outputs. -/
def wrapChars (m : List Char → ℚ) (w : ℚ) (text : List Char) : List (List Char) :=
  if text = [] then [[]]
  else ((splitNL (normalizeNewlines text)).map (wrapSeg m w)).flatten

/-- `wrapLine(ctx, text, maxWidth)` at the `String` level; the measurer
`m` stands for `ctx.measureText(·).width` under the context's current font. -/
def wrapLine (m : String → ℚ) (text : String) (maxWidth : ℚ) : List String :=
  (wrapChars (fun l => m (String.mk l)) maxWidth text.data).map String.mk

/-! ## Input payload (`PdfAnalysisPayload`, source lines 5–33) -/

structure PdfPageSummary where
  page_number : ℤ
  classification : String
  bullets : List String
  keywords : List String
  skipped : Bool
  skip_reason : Option String
  deriving DecidableEq, Repr

structure PdfExpansions where
  key_conclusions : String
  core_data : String
  risks_and_actions : String
  deriving DecidableEq, Repr

structure PdfGlobalSummary where
  bullets : List String
  expansions : PdfExpansions
  deriving DecidableEq, Repr

structure PdfAnalysisPayload where
  documentTitle : String
  languageLabel : Option String
  totalPages : ℤ
  globalSummary : PdfGlobalSummary
  aggregatedKeywords : List String
  pageSummaries : List PdfPageSummary
  wordcloudUrl : Option String
  mindmapImageUrl : Option String
  fontUrl : Option String
  deriving DecidableEq, Repr

/-- `CLASSIFICATION_LABEL[classification] ?? classification` (source
lines 91–97 and 430–431): record lookup with verbatim fallback. -/
def CLASSIFICATION_LABEL (c : String) : String :=
  if c = "normal" then "一般內容"
  else if c = "toc" then "目錄頁"
  else if c = "pure_image" then "純圖片"
  else if c = "blank" then "空白/水印"
  else if c = "cover" then "封面"
  else c

/-- JavaScript string truthiness for optional string fields
(`undefined`, `null` and `""` are falsy). -/
def strTruthy : Option String → Bool
  | none => false
  | some s => s ≠ ""

/-! ## Canvas paint events and page/cursor state

A canvas is modelled as the ordered list of paint operations applied to
it.  `x` positions may involve measured text widths and are rational;
`y` positions are the integer cursor values of the source. -/

inductive Paint where
  /-- `ctx.fillRect(x, y, w, h)` with the active fill color. -/
  | rect (x y w h : ℕ) (color : String)
  /-- `ctx.fillText(content, x, y)` with the active font and fill color. -/
  | text (font color content : String) (x : ℚ) (y : ℕ)
  /-- `ctx.drawImage(image, x, y, w, h)` for the image loaded from `url`. -/
  | img (url : String) (x : ℚ) (y : ℕ) (w h : ℚ)
  deriving DecidableEq, Repr

/-- `PageContext` (source lines 99–104): the active canvas, write cursor
and 1-based page number. -/
structure PageCtx where
  canvas : List Paint
  cursorY : ℕ
  pageNumber : ℕ
  deriving DecidableEq, Repr

/-- The generator state: committed canvases (`pages`), the active
`PageContext`, and a ghost log recording, for every drawn content block
(paragraph line, bullet line, image), the vertical position of its
bottom edge.  `blockLog` is write-only instrumentation: no drawing
decision reads it. -/
structure GenSt where
  pages : List (List Paint)
  cur : PageCtx
  blockLog : List ℚ
  deriving DecidableEq, Repr

/-- `createPage(pageNumber)` (source lines 106–127), success path: fresh
white canvas, cursor at the top margin.  Acquisition failure of the 2D
context is environment-global and is modelled once in
`generateAnalysisPdf` via `Env.canvasOk`. -/
def createPage (pageNumber : ℕ) : PageCtx :=
  { canvas := [Paint.rect 0 0 PAGE_WIDTH PAGE_HEIGHT "#ffffff"]
    cursorY := MARGIN_TOP
    pageNumber := pageNumber }

/-- The measurer family: `measure font text` is
`ctx.measureText(text).width` while `ctx.font = font`. -/
def Measure : Type := String → String → ℚ

/-- The footer text painted by `drawFooter` (source lines 129–139). -/
def footerText (n : ℕ) : String := "第 " ++ toString n ++ " 頁"

/-- The single paint of `drawFooter(ctx, pageNumber)`. -/
def footerPaint (m : Measure) (n : ℕ) : Paint :=
  Paint.text (buildFont 14) MUTED_COLOR (footerText n)
    (((PAGE_WIDTH - MARGIN_X : ℕ) : ℚ) - m (buildFont 14) (footerText n))
    (PAGE_HEIGHT - MARGIN_BOTTOM + 36)

/-- Append a `fillText` paint to the active canvas. -/
def paintText (st : GenSt) (font color content : String) (x : ℚ) (y : ℕ) : GenSt :=
  { st with cur := { st.cur with canvas := st.cur.canvas ++ [Paint.text font color content x y] } }

/-- Append a `drawImage` paint to the active canvas. -/
def paintImg (st : GenSt) (url : String) (x : ℚ) (y : ℕ) (w h : ℚ) : GenSt :=
  { st with cur := { st.cur with canvas := st.cur.canvas ++ [Paint.img url x y w h] } }

/-- Advance the write cursor: `context.cursorY += n`. -/
def advance (st : GenSt) (n : ℕ) : GenSt :=
  { st with cur := { st.cur with cursorY := st.cur.cursorY + n } }

/-- Set the write cursor to an absolute position. -/
def setCursor (st : GenSt) (y : ℕ) : GenSt :=
  { st with cur := { st.cur with cursorY := y } }

/-- Record the bottom edge of a drawn content block in the ghost log. -/
def logBlock (st : GenSt) (bottom : ℚ) : GenSt :=
  { st with blockLog := st.blockLog ++ [bottom] }

/-- `commitPage()` (source lines 282–290): stamp the footer, push the
canvas, allocate a fresh page with the next page number. -/
def commitPage (m : Measure) (st : GenSt) : GenSt :=
  { pages := st.pages ++ [st.cur.canvas ++ [footerPaint m st.cur.pageNumber]]
    cur := createPage (st.cur.pageNumber + 1)
    blockLog := st.blockLog }

/-- `ensureSpace(minHeight = 120)` (source lines 292–296). -/
def ensureSpace (m : Measure) (st : GenSt) (minHeight : ℕ := 120) : GenSt :=
  if st.cur.cursorY + minHeight > bottomY then commitPage m st else st

/-! ## Block renderers (`drawParagraph` lines 171–202,
`drawBulletList` lines 204–245) -/

/-- Options of `drawParagraph`; a missing options object leaves every
field at its default. -/
structure ParaOpts where
  font : String := buildFont 16
  color : String := BODY_COLOR
  lineHeight : ℕ := 26
  gapAfter : ℕ := 12

/-- The per-line loop of `drawParagraph`: before each line, if writing
it would cross the bottom content boundary, the overflow callback runs
(`ensureSpace?.()`; `id` when the caller passed none); then the line is
painted at the left margin and the cursor advances by the line height. -/
def drawParaLines (opts : ParaOpts) (cb : GenSt → GenSt) : GenSt → List String → GenSt
  | st, [] => st
  | st, line :: rest =>
    let st1 := if st.cur.cursorY + opts.lineHeight > bottomY then cb st else st
    let st2 := paintText st1 opts.font opts.color line MARGIN_X st1.cur.cursorY
    let st3 := logBlock st2 ((st1.cur.cursorY + opts.lineHeight : ℕ) : ℚ)
    drawParaLines opts cb (advance st3 opts.lineHeight) rest

/-- `drawParagraph(context, text, options?, ensureSpace?)`. -/
def drawParagraph (m : Measure) (opts : ParaOpts) (cb : GenSt → GenSt)
    (st : GenSt) (text : String) : GenSt :=
  let lines := wrapLine (m opts.font) text ((PAGE_WIDTH - MARGIN_X * 2 : ℕ) : ℚ)
  advance (drawParaLines opts cb st lines) opts.gapAfter

/-- Options of `drawBulletList`. -/
structure BulletOpts where
  lineHeight : ℕ := 26
  bulletSpacing : ℕ := 10

/-- Paint the wrapped lines of one bullet at the indented x position,
walking a local `lineCursor` that starts at the cursor position and does
not move the page cursor. -/
def paintLinesAt (font color : String) (x : ℚ) (lh : ℕ) :
    GenSt → ℕ → List String → GenSt
  | st, _, [] => st
  | st, y, line :: rest =>
    let st1 := logBlock (paintText st font color line x y) ((y + lh : ℕ) : ℚ)
    paintLinesAt font color x lh st1 (y + lh) rest

/-- One iteration of the bullet loop of `drawBulletList`: wrap the
bullet, compute its total height, run the overflow callback once if
that height does not fit, then draw the glyph and all lines, and
advance the cursor by the occupied height plus the bullet spacing. -/
def drawBullet (m : Measure) (opts : BulletOpts) (cb : GenSt → GenSt)
    (st : GenSt) (bullet : String) : GenSt :=
  let lines := wrapLine (m (buildFont 16)) bullet ((PAGE_WIDTH - MARGIN_X * 2 - 24 : ℕ) : ℚ)
  let bulletHeight := max opts.lineHeight (lines.length * opts.lineHeight)
  let st1 := if st.cur.cursorY + bulletHeight > bottomY then cb st else st
  let st2 := paintText st1 (buildFont 16) BODY_COLOR "•" MARGIN_X st1.cur.cursorY
  let st3 := paintLinesAt (buildFont 16) BODY_COLOR ((MARGIN_X + 24 : ℕ) : ℚ)
    opts.lineHeight st2 st1.cur.cursorY lines
  let st4 := setCursor st3
    (max (st1.cur.cursorY + bulletHeight) (st1.cur.cursorY + lines.length * opts.lineHeight))
  advance st4 opts.bulletSpacing

/-- `drawBulletList(context, bullets, options?, ensureSpace?)`. -/
def drawBulletList (m : Measure) (opts : BulletOpts) (cb : GenSt → GenSt)
    (st : GenSt) (bullets : List String) : GenSt :=
  bullets.foldl (drawBullet m opts cb) st

/-! ## Image pages (`drawImagePage`, source lines 524–558) -/

/-- A successfully loaded `HTMLImageElement`: its natural dimensions. -/
structure Image where
  width : ℚ
  height : ℚ
  deriving DecidableEq, Repr

def availableWidth : ℚ := ((PAGE_WIDTH - MARGIN_X * 2 : ℕ) : ℚ)

def availableHeight : ℚ := ((PAGE_HEIGHT - MARGIN_TOP - MARGIN_BOTTOM - 80 : ℕ) : ℚ)

/-- `Math.min(availableWidth / image.width, availableHeight / image.height, 1)`. -/
def imageScale (image : Image) : ℚ :=
  min (min (availableWidth / image.width) (availableHeight / image.height)) 1

/-- The body of `drawImagePage` that renders below the heading: the
image scaled by `imageScale` when the url is truthy and the load
succeeds, a caught-error paragraph when the load fails, and a muted
placeholder when the url is missing/empty. -/
def drawImageContent (m : Measure) (load : String → Except String Image)
    (st : GenSt) : Option String → GenSt
  | some url =>
    if url = "" then drawParagraph m { color := MUTED_COLOR } id st "尚未取得圖像資料。"
    else
      match load url with
      | Except.ok image =>
        let scale := imageScale image
        let drawWidth := image.width * scale
        let drawHeight := image.height * scale
        let offsetX := ((MARGIN_X : ℕ) : ℚ) + (availableWidth - drawWidth) / 2
        logBlock (paintImg st url offsetX st.cur.cursorY drawWidth drawHeight)
          (st.cur.cursorY + drawHeight)
      | Except.error e => drawParagraph m { color := MUTED_COLOR } id st ("圖像載入失敗：" ++ e)
  | none => drawParagraph m { color := MUTED_COLOR } id st "尚未取得圖像資料。"

/-- `drawImagePage(title, imageUrl?)`: force a fresh page when the
cursor is not at the top margin, paint the heading, draw the content
(`drawImageContent`), and commit. -/
def drawImagePage (m : Measure) (load : String → Except String Image)
    (st : GenSt) (title : String) (imageUrl : Option String) : GenSt :=
  let stA := if st.cur.cursorY ≠ MARGIN_TOP then commitPage m st else st
  let stB := advance (paintText stA (buildFont 26 600) HEADING_COLOR title MARGIN_X stA.cur.cursorY) 40
  commitPage m (drawImageContent m load stB imageUrl)

/-! ## Section composers (`generateAnalysisPdf`, source lines 276–558) -/

/-- Title block (source lines 298–321): report title, document title
with fallback, and the muted metadata line. -/
def titleBlock (p : PdfAnalysisPayload) (st : GenSt) : GenSt :=
  let st1 := advance (paintText st (buildFont 32 700) HEADING_COLOR "分析報告" MARGIN_X st.cur.cursorY) 46
  let st2 := advance (paintText st1 (buildFont 24 600) HEADING_COLOR
    (if p.documentTitle = "" then "未命名檔案" else p.documentTitle) MARGIN_X st1.cur.cursorY) 38
  let metaPieces :=
    (match p.languageLabel with
      | some l => if l = "" then [] else ["語言：" ++ l]
      | none => []) ++ ["總頁數：" ++ toString p.totalPages]
  advance (paintText st2 (buildFont 15) MUTED_COLOR
    (String.intercalate "  •  " metaPieces) MARGIN_X st2.cur.cursorY) 40

/-- `drawSectionHeading` closure (source lines 323–331). -/
def drawSectionHeading (m : Measure) (st : GenSt) (text : String) : GenSt :=
  let st1 := ensureSpace m st 80
  advance (paintText st1 (buildFont 22 600) HEADING_COLOR text MARGIN_X st1.cur.cursorY) 34

/-- `drawSubHeading` closure (source lines 333–341). -/
def drawSubHeading (m : Measure) (st : GenSt) (text : String) : GenSt :=
  let st1 := ensureSpace m st 50
  advance (paintText st1 (buildFont 18 600) HEADING_COLOR text MARGIN_X st1.cur.cursorY) 28

/-- 全局摘要 section (source lines 344–353), including the trailing
`SECTION_GAP` advance. -/
def globalSummarySection (m : Measure) (p : PdfAnalysisPayload) (st : GenSt) : GenSt :=
  let st1 := drawSectionHeading m st "全局摘要"
  let st2 :=
    if p.globalSummary.bullets ≠ [] then
      drawBulletList m {} (fun s => drawSectionHeading m (commitPage m s) "全局摘要")
        st1 p.globalSummary.bullets
    else drawParagraph m { color := MUTED_COLOR } id st1 "尚未提供全局摘要。"
  advance st2 SECTION_GAP

/-- The overflow callback of each expansion paragraph: commit, redraw
the section heading and the required sub-heading (source lines
362–366, 374–378, 386–390). -/
def expansionCb (m : Measure) (sub : String) : GenSt → GenSt :=
  fun s => drawSubHeading m (drawSectionHeading m (commitPage m s) "延伸說明") sub

/-- 延伸說明 section (source lines 356–393): three sub-heading +
paragraph pairs, each paragraph falling back to 暫無資料 on an empty
field (`||` on a JS string treats `""` as falsy), then `SECTION_GAP`. -/
def expansionsSection (m : Measure) (p : PdfAnalysisPayload) (st : GenSt) : GenSt :=
  advance
    (drawParagraph m {} (expansionCb m "風險與建議")
      (drawSubHeading m
        (drawParagraph m { gapAfter := 16 } (expansionCb m "核心資料")
          (drawSubHeading m
            (drawParagraph m { gapAfter := 16 } (expansionCb m "關鍵結論")
              (drawSubHeading m (drawSectionHeading m st "延伸說明") "關鍵結論")
              (if p.globalSummary.expansions.key_conclusions = "" then "暫無資料"
               else p.globalSummary.expansions.key_conclusions))
            "核心資料")
          (if p.globalSummary.expansions.core_data = "" then "暫無資料"
           else p.globalSummary.expansions.core_data))
        "風險與建議")
      (if p.globalSummary.expansions.risks_and_actions = "" then "暫無資料"
       else p.globalSummary.expansions.risks_and_actions))
    SECTION_GAP

/-- 整體關鍵字 section (source lines 396–412). -/
def keywordsSection (m : Measure) (p : PdfAnalysisPayload) (st : GenSt) : GenSt :=
  let st1 := drawSectionHeading m st "整體關鍵字"
  if p.aggregatedKeywords ≠ [] then
    drawParagraph m { gapAfter := 0 }
      (fun s => drawSectionHeading m (commitPage m s) "整體關鍵字")
      st1 (String.intercalate "，" p.aggregatedKeywords)
  else drawParagraph m { color := MUTED_COLOR } id st1 "暫無整體關鍵字資料。"

/-- `drawPageSummaryHeading` closure (source lines 417–424). -/
def drawPageSummaryHeading (st : GenSt) : GenSt :=
  advance (paintText st (buildFont 24 600) HEADING_COLOR "逐頁重點摘要" MARGIN_X st.cur.cursorY) 38

def pageNumHeading (n : ℤ) : String := "第 " ++ toString n ++ " 頁"

/-- The per-summary heading with the muted classification/skip marker
(source lines 433–443, repeated at 449–462). -/
def summaryHeadFull (m : Measure) (s : PdfPageSummary) (st : GenSt) : GenSt :=
  let st1 := paintText st (buildFont 18 600) HEADING_COLOR (pageNumHeading s.page_number)
    MARGIN_X st.cur.cursorY
  let meta := if s.skipped ∧ strTruthy s.skip_reason then "（已跳過）"
              else CLASSIFICATION_LABEL s.classification
  let st2 := paintText st1 (buildFont 15) MUTED_COLOR (" " ++ meta)
    (((MARGIN_X : ℕ) : ℚ) + m (buildFont 15) (pageNumHeading s.page_number) + 6) (st1.cur.cursorY + 2)
  advance st2 28

/-- The bare per-summary heading redrawn by the paragraph overflow
callbacks (source lines 472–477, 491–496, 509–514). -/
def summaryHeadBare (s : PdfPageSummary) (st : GenSt) : GenSt :=
  advance (paintText st (buildFont 18 600) HEADING_COLOR (pageNumHeading s.page_number)
    MARGIN_X st.cur.cursorY) 28

/-- The bare-heading overflow callback used by the per-summary
paragraphs (source lines 469–478, 488–497, 506–515). -/
def summaryBareCb (m : Measure) (s : PdfPageSummary) : GenSt → GenSt :=
  fun t => summaryHeadBare s (drawPageSummaryHeading (commitPage m t))

/-- The full-heading overflow callback used by the per-summary bullet
list (source lines 446–463). -/
def summaryFullCb (m : Measure) (s : PdfPageSummary) : GenSt → GenSt :=
  fun t => summaryHeadFull m s (drawPageSummaryHeading (commitPage m t))

/-- Bullets or muted placeholder for one summary (source lines 445–480). -/
def summaryBulletPart (m : Measure) (s : PdfPageSummary) (t : GenSt) : GenSt :=
  if s.bullets ≠ [] then
    drawBulletList m {} (summaryFullCb m s) t s.bullets
  else
    drawParagraph m { color := MUTED_COLOR, gapAfter := 10 } (summaryBareCb m s) t "本頁無摘要資料。"

/-- Keyword line for one summary, or nothing (source lines 482–499). -/
def summaryKeywordPart (m : Measure) (s : PdfPageSummary) (t : GenSt) : GenSt :=
  if s.keywords ≠ [] then
    drawParagraph m { color := MUTED_COLOR, gapAfter := 18 } (summaryBareCb m s) t
      ("關鍵字：" ++ String.intercalate "、" s.keywords)
  else t

/-- Skip-reason line or fixed spacer (source lines 501–519). -/
def summarySkipPart (m : Measure) (s : PdfPageSummary) (t : GenSt) : GenSt :=
  if s.skipped ∧ strTruthy s.skip_reason then
    drawParagraph m { color := MUTED_COLOR, gapAfter := 28 } (summaryBareCb m s) t
      ("跳過原因：" ++ s.skip_reason.getD "")
  else advance t 18

/-- One iteration of the per-page-summary loop (source lines 428–520). -/
def summaryStep (m : Measure) (st : GenSt) (s : PdfPageSummary) : GenSt :=
  summarySkipPart m s (summaryKeywordPart m s
    (summaryBulletPart m s (summaryHeadFull m s (ensureSpace m st 160))))

/-- The whole layout pass of `generateAnalysisPdf` (source lines
280–558), as a pure state transformer: title block, the four content
sections, a forced page break, the per-page summaries, a second forced
break, and the two trailing image pages. -/
def layoutRun (m : Measure) (load : String → Except String Image)
    (p : PdfAnalysisPayload) : GenSt :=
  let st0 : GenSt := { pages := [], cur := createPage 1, blockLog := [] }
  let st1 := titleBlock p st0
  let st2 := globalSummarySection m p st1
  let st3 := expansionsSection m p st2
  let st4 := keywordsSection m p st3
  let st5 := commitPage m st4
  let st6 := drawPageSummaryHeading st5
  let st7 := p.pageSummaries.foldl (summaryStep m) st6
  let st8 := commitPage m st7
  let st9 := drawImagePage m load st8 "文字雲" p.wordcloudUrl
  drawImagePage m load st9 "心智圖" p.mindmapImageUrl

/-! ## Document assembly (source lines 247–265 and 560–575) -/

/-- The browser environment: whether a 2D context can be acquired
(`canvas.getContext("2d")`), whether canvas→PNG conversion succeeds
(`canvas.toBlob`), and the image loader for the two trailing sections. -/
structure Env where
  canvasOk : Bool
  pngOk : Bool
  loadImage : String → Except String Image

/-- `canvasToPngBytes(canvas)`: the PNG bytes are identified with the
canvas's paint list; failure rejects with the source's message. -/
def canvasToPngBytes (env : Env) (canvas : List Paint) : Except String (List Paint) :=
  if env.pngOk then Except.ok canvas else Except.error "無法將畫布轉換為 PNG"

/-- One output PDF page: the embedded page image placed top-aligned
with the uniform scale `PDF_PAGE_WIDTH / PAGE_WIDTH`. -/
structure PdfPage where
  content : List Paint
  x : ℚ
  y : ℚ
  width : ℚ
  height : ℚ
  deriving DecidableEq, Repr

/-- Embedding of one canvas into the PDF (source lines 561–573). -/
def embedPage (canvas : List Paint) : PdfPage :=
  let scale := PDF_PAGE_WIDTH / (PAGE_WIDTH : ℚ)
  let scaledW := (PAGE_WIDTH : ℚ) * scale
  let scaledH := (PAGE_HEIGHT : ℚ) * scale
  { content := canvas, x := 0, y := PDF_PAGE_HEIGHT - scaledH, width := scaledW, height := scaledH }

/-- The assembly loop: each finalized canvas in order, converted to PNG
bytes and embedded as one PDF page; the first conversion failure aborts
with its error. -/
def assemble (env : Env) : List (List Paint) → Except String (List PdfPage)
  | [] => Except.ok []
  | canvas :: rest =>
    match canvasToPngBytes env canvas with
    | Except.ok png =>
      match assemble env rest with
      | Except.ok pdfPages => Except.ok (embedPage png :: pdfPages)
      | Except.error e => Except.error e
    | Except.error e => Except.error e

/-- The observable outcome of `generateAnalysisPdf`: the finalized
canvases, the never-appended final working canvas, the final cursor and
page number, the ghost block log, and the assembled document. -/
structure GenResult where
  pages : List (List Paint)
  finalCanvas : List Paint
  finalCursor : ℕ
  finalPageNumber : ℕ
  blockLog : List ℚ
  pdf : List PdfPage
  deriving DecidableEq, Repr

/-- `generateAnalysisPdf(payload)` (source lines 276–576).  The font
preload (`ensurePrimaryFont`) affects only which font renders and never
the layout, and is not modelled.  2D-context acquisition is
environment-global: when it fails, the first `createPage(1)` throws. -/
def generateAnalysisPdf (env : Env) (m : Measure) (p : PdfAnalysisPayload) :
    Except String GenResult :=
  if env.canvasOk then
    let fin := layoutRun m env.loadImage p
    match assemble env fin.pages with
    | Except.ok pdf =>
      Except.ok { pages := fin.pages, finalCanvas := fin.cur.canvas,
                  finalCursor := fin.cur.cursorY, finalPageNumber := fin.cur.pageNumber,
                  blockLog := fin.blockLog, pdf := pdf }
    | Except.error e => Except.error e
  else Except.error "無法建立畫布內容 (CanvasRenderingContext2D)"

/-- The finalized pages of a generation outcome (empty on failure). -/
def resultPages : Except String GenResult → List (List Paint)
  | Except.ok r => r.pages
  | Except.error _ => []

/-- The ghost block log of a generation outcome (empty on failure). -/
def resultLog : Except String GenResult → List ℚ
  | Except.ok r => r.blockLog
  | Except.error _ => []

/-- Boolean "is not the space character", the character class dropped at
wrap points. -/
def notSpace (c : Char) : Bool := c != ' '

/-- Re-joining the hard-newline segments with `'\n'` separators. -/
def intercalateNL : List (List Char) → List Char
  | [] => []
  | [x] => x
  | x :: y :: ys => x ++ '\n' :: intercalateNL (y :: ys)

/-! ## Concrete fixtures used by witnesses and counterexamples -/

/-- A constant-width measurer (every string measures 5). -/
def constWidth : List Char → ℚ := fun _ => 5

/-- A measurer assigning each character width 1. -/
def lenWidth : List Char → ℚ := fun l => (l.length : ℚ)

/-- A benign measurer family: every character is 16 wide in any font. -/
def mNarrow : Measure := fun _ s => ((16 * s.length : ℕ) : ℚ)

/-- A measurer family making any two characters wider than the bullet
content width (1006): bullets wrap one character per line. -/
def mWide : Measure := fun _ s => ((600 * s.length : ℕ) : ℚ)

/-- A healthy browser environment whose image loads always fail with
the source's load-error message. -/
def envLoadFail : Env :=
  { canvasOk := true, pngOk := true,
    loadImage := fun u => Except.error ("無法載入圖像：" ++ u) }

/-- An image loader that always fails with the fixed message "x". -/
def loadErrX : String → Except String Image := fun _ => Except.error "x"

/-- A healthy browser environment with fixed 500×400 images. -/
def envImgOk : Env :=
  { canvasOk := true, pngOk := true,
    loadImage := fun _ => Except.ok { width := 500, height := 400 } }

/-- The empty `AnalysisPayload`: no bullets, no keywords, no page
summaries, no images. -/
def emptyExpansions : PdfExpansions :=
  { key_conclusions := "", core_data := "", risks_and_actions := "" }

def emptyPayload : PdfAnalysisPayload :=
  { documentTitle := "", languageLabel := none, totalPages := 0,
    globalSummary := { bullets := [], expansions := emptyExpansions },
    aggregatedKeywords := [], pageSummaries := [],
    wordcloudUrl := none, mindmapImageUrl := none, fontUrl := none }

/-- The empty payload with both image references present. -/
def imgPayload : PdfAnalysisPayload :=
  { emptyPayload with wordcloudUrl := some "u", mindmapImageUrl := some "v" }

/-- A payload whose single global-summary bullet wraps (under `mWide`)
to 60 one-character lines: taller than one page's content area. -/
def giantBulletPayload : PdfAnalysisPayload :=
  { documentTitle := "t", languageLabel := none, totalPages := 1,
    globalSummary := { bullets := [String.mk (List.replicate 60 'x')], expansions := emptyExpansions },
    aggregatedKeywords := [], pageSummaries := [],
    wordcloudUrl := none, mindmapImageUrl := none, fontUrl := none }

/-- A payload with an empty expansion field and a page summary with an
empty keyword list. -/
def summaryNoKeywords : PdfPageSummary :=
  { page_number := 1, classification := "normal", bullets := ["b"],
    keywords := [], skipped := false, skip_reason := none }

def emptyFieldsPayload : PdfAnalysisPayload :=
  { documentTitle := "d", languageLabel := none, totalPages := 1,
    globalSummary := { bullets := ["g"], expansions := { key_conclusions := "", core_data := "c", risks_and_actions := "r" } },
    aggregatedKeywords := ["k"],
    pageSummaries := [summaryNoKeywords],
    wordcloudUrl := none, mindmapImageUrl := none, fontUrl := none }

/-- All paints of a generation outcome, committed pages first, then the
final working canvas (empty on failure). -/
def resultAllPaints : Except String GenResult → List Paint
  | Except.ok r => r.pages.flatten ++ r.finalCanvas
  | Except.error _ => []

/-- The text content of a paint event, if it is a `fillText`. -/
def paintContent : Paint → Option String
  | Paint.text _ _ s _ _ => some s
  | _ => none

/-- The fill color of a `fillText` paint event. -/
def paintTextColor : Paint → Option String
  | Paint.text _ c _ _ _ => some c
  | _ => none

/-- All paint events of a generator state: committed pages in order,
then the active canvas. -/
def allPaints (st : GenSt) : List Paint := st.pages.flatten ++ st.cur.canvas

/-- The drawing operations only ever append paint events: `st'` extends
`st` when its paints are those of `st` followed by new ones. -/
def PaintExtends (st st' : GenSt) : Prop :=
  ∃ t, allPaints st' = allPaints st ++ t

/-- The initial generator state (`createPage(1)`, nothing committed). -/
def initSt : GenSt := { pages := [], cur := createPage 1, blockLog := [] }

/-- The committed canvases starting at page number `k` each end with
their own footer stamp, consecutively numbered. -/
def FootersFrom (m : Measure) : ℕ → List (List Paint) → Prop
  | _, [] => True
  | k, pg :: rest => pg.getLast? = some (footerPaint m k) ∧ FootersFrom m (k + 1) rest

/-- The page/footer invariant: the active page number is one past the
committed count, and the committed canvases carry consecutive footer
stamps 1, 2, 3, … as their last paint. -/
def PageInv (m : Measure) (st : GenSt) : Prop :=
  st.cur.pageNumber = st.pages.length + 1 ∧ FootersFrom m 1 st.pages

/-- A state transition that finalizes no page: the committed list and
the active page number are untouched, and the active canvas has only
grown at its end. -/
def NoCommit (st st' : GenSt) : Prop :=
  st'.pages = st.pages ∧ st'.cur.pageNumber = st.cur.pageNumber ∧
  ∃ t, st'.cur.canvas = st.cur.canvas ++ t

/-! ## Lemmas about `wrapLine` -/

lemma notSpace_space : notSpace ' ' = false := rfl

lemma notSpace_of_ne {c : Char} (h : c ≠ ' ') : notSpace c = true := by
  simp [notSpace, h]

/-- The characters committed by the inner wrap loop, followed by the
final `current`, form a sublist of `current ++ remaining`: no character
is duplicated or reordered, and only characters can be dropped. -/
lemma wrapGo_flatten_sublist (m : List Char → ℚ) (w : ℚ) :
    ∀ (l cur : List Char),
      List.Sublist ((wrapGo m w cur l).1.flatten ++ (wrapGo m w cur l).2) (cur ++ l) := by
  intro l
  induction l with
  | nil => intro cur; simp [wrapGo]
  | cons c rest ih =>
    intro cur
    by_cases h : m (cur ++ [c]) ≤ w ∨ cur = []
    · rw [wrapGo, if_pos h]
      simpa [List.append_assoc] using ih (cur ++ [c])
    · rw [wrapGo, if_neg h]
      simp only [List.flatten_cons, List.append_assoc]
      apply List.Sublist.append_left
      by_cases hc : c = ' '
      · subst hc
        simpa using (ih ([] : List Char)).trans (List.sublist_cons_self ' ' rest)
      · simpa [hc] using ih [c]

/-- Every character the inner wrap loop drops is a space: filtering
spaces out of (committed lines ++ final current) equals filtering them
out of `current ++ remaining`. -/
lemma wrapGo_flatten_filter (m : List Char → ℚ) (w : ℚ) :
    ∀ (l cur : List Char),
      ((wrapGo m w cur l).1.flatten ++ (wrapGo m w cur l).2).filter notSpace
        = (cur ++ l).filter notSpace := by
  intro l
  induction l with
  | nil => intro cur; simp [wrapGo]
  | cons c rest ih =>
    intro cur
    by_cases h : m (cur ++ [c]) ≤ w ∨ cur = []
    · rw [wrapGo, if_pos h]
      rw [ih (cur ++ [c])]
      simp [List.append_assoc]
    · rw [wrapGo, if_neg h]
      by_cases hc : c = ' '
      · subst hc
        simp only [if_pos rfl]
        rw [List.flatten_cons, List.append_assoc, List.filter_append, List.filter_append]
        simpa [List.filter_cons, notSpace_space] using ih ([] : List Char)
      · simp only [if_neg hc]
        rw [List.flatten_cons, List.append_assoc, List.filter_append, List.filter_append]
        simpa using ih [c]

/-- Every line committed by the inner wrap loop is nonempty. -/
lemma wrapGo_lines_ne_nil (m : List Char → ℚ) (w : ℚ) :
    ∀ (l cur : List Char), ∀ x ∈ (wrapGo m w cur l).1, x ≠ [] := by
  intro l
  induction l with
  | nil => intro cur x hx; simp [wrapGo] at hx
  | cons c rest ih =>
    intro cur x hx
    by_cases h : m (cur ++ [c]) ≤ w ∨ cur = []
    · rw [wrapGo, if_pos h] at hx
      exact ih (cur ++ [c]) x hx
    · rw [wrapGo, if_neg h] at hx
      rcases List.mem_cons.mp hx with hx | hx
      · push_neg at h
        exact hx ▸ h.2
      · exact ih _ x hx

/-- If the inner wrap loop commits nothing and ends with an empty
`current`, both the initial `current` and the input were empty. -/
lemma wrapGo_progress (m : List Char → ℚ) (w : ℚ) :
    ∀ (l cur : List Char), (wrapGo m w cur l).1 = [] →
      (wrapGo m w cur l).2 = [] → cur = [] ∧ l = [] := by
  intro l
  induction l with
  | nil => intro cur h1 h2; exact ⟨h2, rfl⟩
  | cons c rest ih =>
    intro cur h1 h2
    by_cases h : m (cur ++ [c]) ≤ w ∨ cur = []
    · rw [wrapGo, if_pos h] at h1 h2
      exact absurd (ih (cur ++ [c]) h1 h2).1 (by simp)
    · rw [wrapGo, if_neg h] at h1
      simp at h1

/-- Invariant of the accumulated line: every committed line, and the
final `current` when nonempty, either measures within `w` or is a
single character. -/
lemma wrapGo_lines_ok (m : List Char → ℚ) (w : ℚ) :
    ∀ (l cur : List Char), (cur = [] ∨ m cur ≤ w ∨ cur.length = 1) →
      (∀ x ∈ (wrapGo m w cur l).1, m x ≤ w ∨ x.length = 1) ∧
      ((wrapGo m w cur l).2 = [] ∨ m (wrapGo m w cur l).2 ≤ w ∨
        (wrapGo m w cur l).2.length = 1) := by
  intro l
  induction l with
  | nil =>
    intro cur hcur
    constructor
    · intro x hx; simp [wrapGo] at hx
    · simpa [wrapGo] using hcur
  | cons c rest ih =>
    intro cur hcur
    by_cases h : m (cur ++ [c]) ≤ w ∨ cur = []
    · rw [wrapGo, if_pos h]
      apply ih (cur ++ [c])
      rcases h with h | h
      · exact Or.inr (Or.inl h)
      · subst h; exact Or.inr (Or.inr (by simp))
    · rw [wrapGo, if_neg h]
      push_neg at h
      have hcurok : m cur ≤ w ∨ cur.length = 1 := by
        rcases hcur with hcur | hcur
        · exact absurd hcur h.2
        · exact hcur
      have hnext : ((if c = ' ' then [] else [c]) : List Char) = [] ∨
          m (if c = ' ' then [] else [c]) ≤ w ∨
          (if c = ' ' then ([] : List Char) else [c]).length = 1 := by
        by_cases hc : c = ' '
        · simp [hc]
        · simp [hc]
      refine ⟨?_, (ih _ hnext).2⟩
      intro x hx
      rcases List.mem_cons.mp hx with hx | hx
      · exact hx ▸ hcurok
      · exact (ih _ hnext).1 x hx

lemma wrapSeg_nil (m : List Char → ℚ) (w : ℚ) : wrapSeg m w [] = [[]] := by
  simp [wrapSeg, wrapGo]

/-- `wrapSeg` never returns an empty line list. -/
lemma wrapSeg_ne_nil (m : List Char → ℚ) (w : ℚ) (raw : List Char) :
    wrapSeg m w raw ≠ [] := by
  by_cases hraw : raw = []
  · subst hraw; rw [wrapSeg_nil]; simp
  · unfold wrapSeg
    by_cases hfin : (wrapGo m w [] raw).2 = []
    · have h1 : (wrapGo m w [] raw).1 ≠ [] := by
        intro h
        exact hraw (wrapGo_progress m w raw [] h hfin).2
      simp [hfin, hraw, h1]
    · simp [hfin]

/-- The characters of the wrapped lines form a sublist of the segment. -/
lemma wrapSeg_flatten_sublist (m : List Char → ℚ) (w : ℚ) (raw : List Char) :
    List.Sublist (wrapSeg m w raw).flatten raw := by
  by_cases hraw : raw = []
  · subst hraw; rw [wrapSeg_nil]; simp
  · have base := wrapGo_flatten_sublist m w raw []
    simp only [List.nil_append] at base
    unfold wrapSeg
    by_cases hfin : (wrapGo m w [] raw).2 = []
    · rw [hfin, List.append_nil] at base
      simpa [hfin, hraw] using base
    · simpa [hfin] using base

/-- No non-space character is dropped or duplicated by `wrapSeg`. -/
lemma wrapSeg_flatten_filter (m : List Char → ℚ) (w : ℚ) (raw : List Char) :
    (wrapSeg m w raw).flatten.filter notSpace = raw.filter notSpace := by
  by_cases hraw : raw = []
  · subst hraw; rw [wrapSeg_nil]; simp
  · have base := wrapGo_flatten_filter m w raw []
    simp only [List.nil_append] at base
    unfold wrapSeg
    by_cases hfin : (wrapGo m w [] raw).2 = []
    · rw [hfin, List.append_nil] at base
      simpa [hfin, hraw] using base
    · simpa [hfin, List.filter_append] using base

/-- Every line of `wrapSeg` measures within `w`, is a single character,
or is the empty line produced for an empty segment. -/
lemma wrapSeg_lines_ok (m : List Char → ℚ) (w : ℚ) (raw : List Char) :
    ∀ x ∈ wrapSeg m w raw, m x ≤ w ∨ x.length = 1 ∨ x = [] := by
  have base := wrapGo_lines_ok m w raw [] (Or.inl rfl)
  intro x hx
  unfold wrapSeg at hx
  by_cases hfin : (wrapGo m w [] raw).2 = []
  · by_cases hraw : raw = []
    · rw [if_neg (by simp [hfin]), if_pos hraw] at hx
      rcases List.mem_append.mp hx with hx | hx
      · rcases base.1 x hx with h | h
        · exact Or.inl h
        · exact Or.inr (Or.inl h)
      · simp at hx
        exact Or.inr (Or.inr hx)
    · rw [if_neg (by simp [hfin]), if_neg hraw] at hx
      rcases base.1 x hx with h | h
      · exact Or.inl h
      · exact Or.inr (Or.inl h)
  · rw [if_pos hfin] at hx
    rcases List.mem_append.mp hx with hx | hx
    · rcases base.1 x hx with h | h
      · exact Or.inl h
      · exact Or.inr (Or.inl h)
    · simp at hx
      subst hx
      rcases base.2 with h | h | h
      · exact absurd h hfin
      · exact Or.inl h
      · exact Or.inr (Or.inl h)

/-- For a nonempty segment every produced line is nonempty. -/
lemma wrapSeg_lines_ne_nil (m : List Char → ℚ) (w : ℚ) (raw : List Char)
    (hraw : raw ≠ []) : ∀ x ∈ wrapSeg m w raw, x ≠ [] := by
  intro x hx
  unfold wrapSeg at hx
  by_cases hfin : (wrapGo m w [] raw).2 = []
  · rw [if_neg (by simp [hfin]), if_neg hraw] at hx
    exact wrapGo_lines_ne_nil m w raw [] x hx
  · rw [if_pos hfin] at hx
    rcases List.mem_append.mp hx with hx | hx
    · exact wrapGo_lines_ne_nil m w raw [] x hx
    · simp at hx
      exact hx ▸ hfin

/-- A list of nonempty lists has no more elements than its flattening. -/
lemma length_le_flatten_length {α : Type} :
    ∀ (L : List (List α)), (∀ x ∈ L, x ≠ []) → L.length ≤ L.flatten.length := by
  intro L
  induction L with
  | nil => intro _; simp
  | cons x xs ih =>
    intro h
    have hx : 1 ≤ x.length :=
      List.length_pos.mpr (h x (List.mem_cons_self x xs))
    have := ih (fun y hy => h y (List.mem_cons_of_mem x hy))
    simp only [List.length_cons, List.flatten_cons, List.length_append]
    omega

/-- `wrapSeg` produces at least one and at most `max 1 raw.length` lines. -/
lemma wrapSeg_length_bounds (m : List Char → ℚ) (w : ℚ) (raw : List Char) :
    1 ≤ (wrapSeg m w raw).length ∧ (wrapSeg m w raw).length ≤ max 1 raw.length := by
  constructor
  · exact List.length_pos.mpr (wrapSeg_ne_nil m w raw)
  · by_cases hraw : raw = []
    · subst hraw; simp [wrapSeg_nil]
    · have h1 := length_le_flatten_length (wrapSeg m w raw) (wrapSeg_lines_ne_nil m w raw hraw)
      have h2 := (wrapSeg_flatten_sublist m w raw).length_le
      omega

lemma splitNL_ne_nil : ∀ l : List Char, splitNL l ≠ [] := by
  intro l
  cases l with
  | nil => simp [splitNL]
  | cons c rest =>
    by_cases hc : c = '\n'
    · simp [splitNL, hc]
    · rw [splitNL, if_neg hc]
      cases h : splitNL rest with
      | nil => simp
      | cons s ss => simp

/-- `split` and re-join are inverse: the hard-newline structure of the
(normalized) input is exactly recoverable from its segments. -/
lemma intercalateNL_splitNL : ∀ l : List Char, intercalateNL (splitNL l) = l := by
  intro l
  induction l with
  | nil => simp [splitNL, intercalateNL]
  | cons c rest ih =>
    by_cases hc : c = '\n'
    · subst hc
      rw [splitNL, if_pos rfl]
      cases h : splitNL rest with
      | nil => exact absurd h (splitNL_ne_nil rest)
      | cons y ys =>
        rw [h] at ih
        simp [intercalateNL, ih]
    · rw [splitNL, if_neg hc]
      cases h : splitNL rest with
      | nil => exact absurd h (splitNL_ne_nil rest)
      | cons s ss =>
        rw [h] at ih
        cases ss with
        | nil => simpa [intercalateNL] using ih
        | cons z zs => simpa [intercalateNL] using ih

/-- `Forall₂` from a map: each mapped element relates to its source. -/
lemma forall₂_map_left {α β : Type} {rel : β → α → Prop} (f : α → β) :
    ∀ (xs : List α), (∀ x ∈ xs, rel (f x) x) → List.Forall₂ rel (xs.map f) xs := by
  intro xs
  induction xs with
  | nil => intro _; simp
  | cons x rest ih =>
    intro h
    exact List.Forall₂.cons (h x (List.mem_cons_self x rest))
      (ih (fun y hy => h y (List.mem_cons_of_mem x hy)))

/-- Pointwise sublists joined with the same separators are sublists. -/
lemma intercalateNL_sublist :
    ∀ {as bs : List (List Char)}, List.Forall₂ (fun a b => List.Sublist a b) as bs →
      List.Sublist (intercalateNL as) (intercalateNL bs) := by
  intro as bs h
  induction h with
  | nil => simp [intercalateNL]
  | @cons a b as2 bs2 hab htail ih =>
    cases htail with
    | nil => simpa [intercalateNL] using hab
    | cons hxy htail2 =>
      exact List.Sublist.append hab (List.Sublist.cons₂ '\n' ih)

/-- Pointwise filter-equal segments joined with `'\n'` separators are
filter-equal, for a predicate keeping `'\n'`. -/
lemma intercalateNL_filter {p : Char → Bool} (hp : p '\n' = true) :
    ∀ {as bs : List (List Char)},
      List.Forall₂ (fun a b => a.filter p = b.filter p) as bs →
      (intercalateNL as).filter p = (intercalateNL bs).filter p := by
  intro as bs h
  induction h with
  | nil => simp [intercalateNL]
  | @cons a b as2 bs2 hab htail ih =>
    cases htail with
    | nil => simpa [intercalateNL] using hab
    | cons hxy htail2 =>
      simp only [intercalateNL, List.filter_append, List.filter_cons, hp]
      rw [hab, ih]

/-- `wrapChars` always equals the per-segment decomposition (the early
return for empty text agrees with the general path). -/
lemma wrapChars_eq (m : List Char → ℚ) (w : ℚ) (text : List Char) :
    wrapChars m w text
      = ((splitNL (normalizeNewlines text)).map (wrapSeg m w)).flatten := by
  by_cases h : text = []
  · subst h
    simp [wrapChars, normalizeNewlines, splitNL, wrapSeg_nil]
  · simp [wrapChars, h]

/-! ## Claim C3: the wrap/re-join invariant -/

/-- **C3.**  For every input text and maxWidth > 0, the wrap output is
the concatenation of the per-hard-newline-segment outputs, and
re-joining those segment outputs with the original `'\n'` separators
reconstructs the newline-normalized input up to dropping space
characters at wrap points: the re-joined string is a sublist of the
normalized input and agrees with it exactly on non-space characters (so
no non-space character is dropped or duplicated); an empty segment
between consecutive hard newlines yields exactly one empty output line. -/
theorem wrapLine_rejoin_invariant (m : List Char → ℚ) (w : ℚ) (hw : 0 < w)
    (text : List Char) :
    wrapChars m w text
        = ((splitNL (normalizeNewlines text)).map (wrapSeg m w)).flatten
    ∧ List.Sublist
        (intercalateNL ((splitNL (normalizeNewlines text)).map (fun seg => (wrapSeg m w seg).flatten)))
        (normalizeNewlines text)
    ∧ (intercalateNL ((splitNL (normalizeNewlines text)).map (fun seg => (wrapSeg m w seg).flatten))).filter notSpace
        = (normalizeNewlines text).filter notSpace
    ∧ ∀ seg ∈ splitNL (normalizeNewlines text), seg = [] → wrapSeg m w seg = [[]] := by
  refine ⟨wrapChars_eq m w text, ?_, ?_, ?_⟩
  · have h2 := intercalateNL_sublist
      (forall₂_map_left (fun seg => (wrapSeg m w seg).flatten)
        (splitNL (normalizeNewlines text))
        (fun seg _ => wrapSeg_flatten_sublist m w seg))
    rwa [intercalateNL_splitNL (normalizeNewlines text)] at h2
  · have h3 := intercalateNL_filter rfl
      (forall₂_map_left (fun seg => (wrapSeg m w seg).flatten)
        (splitNL (normalizeNewlines text))
        (fun seg _ => wrapSeg_flatten_filter m w seg))
    rwa [intercalateNL_splitNL (normalizeNewlines text)] at h3
  · intro seg _ hseg
    subst hseg
    exact wrapSeg_nil m w

/-- Witness for C3 at the concrete measurer `lenWidth`, maxWidth 2 and
input `"ab cd\n\nx"`. -/
theorem wrapLine_rejoin_invariant_witness :
    0 < (2 : ℚ)
    ∧ (wrapChars lenWidth 2 "ab cd\n\nx".data
        = ((splitNL (normalizeNewlines "ab cd\n\nx".data)).map (wrapSeg lenWidth 2)).flatten
    ∧ List.Sublist
        (intercalateNL ((splitNL (normalizeNewlines "ab cd\n\nx".data)).map (fun seg => (wrapSeg lenWidth 2 seg).flatten)))
        (normalizeNewlines "ab cd\n\nx".data)
    ∧ (intercalateNL ((splitNL (normalizeNewlines "ab cd\n\nx".data)).map (fun seg => (wrapSeg lenWidth 2 seg).flatten))).filter notSpace
        = (normalizeNewlines "ab cd\n\nx".data).filter notSpace
    ∧ ∀ seg ∈ splitNL (normalizeNewlines "ab cd\n\nx".data), seg = [] → wrapSeg lenWidth 2 seg = [[]]) :=
  ⟨by norm_num, wrapLine_rejoin_invariant lenWidth 2 (by norm_num) "ab cd\n\nx".data⟩

/-! ## Claim C8: an over-wide single character is still emitted -/

/-- **C8.**  A single character wider than `maxWidth` is still placed
alone on its own output line (never dropped), because the overflow
commit is suppressed while the accumulated current line is empty. -/
theorem wrapLine_overwide_char (m : List Char → ℚ) (w : ℚ) (c : Char)
    (hnl : c ≠ '\n') (hcr : c ≠ '\r') (h : w < m [c]) :
    wrapChars m w [c] = [[c]] := by
  simp [wrapChars, normalizeNewlines, splitNL, wrapSeg, wrapGo, hnl, hcr]

/-- Witness for C8: `'x'` of width 5 against maxWidth 3. -/
theorem wrapLine_overwide_char_witness :
    ('x' ≠ '\n') ∧ ('x' ≠ '\r') ∧ (3 : ℚ) < constWidth ['x']
    ∧ wrapChars constWidth 3 ['x'] = [['x']] :=
  ⟨by decide, by decide, by norm_num [constWidth],
    wrapLine_overwide_char constWidth 3 'x' (by decide) (by decide) (by norm_num [constWidth])⟩

/-! ## Claim C9: line-width bound (corrected) -/

/-- **C9 counterexample.**  The claim "every output line has measured
width at most maxWidth or consists of exactly one character" fails for
the monotone (constant) measurer `constWidth` at maxWidth 3 on the
input `"\n"`: both output lines are empty (zero characters) and measure
5 > 3. -/
theorem wrapLine_width_claim_counterexample :
    (∀ (s : List Char) (c : Char), constWidth s ≤ constWidth (s ++ [c]))
    ∧ ¬ (∀ line ∈ wrapChars constWidth 3 ['\n'], constWidth line ≤ 3 ∨ line.length = 1) :=
  ⟨fun _ _ => le_refl 5, by decide⟩

/-- **C9 (amended).**  Every output line of the wrapping function
either measures within maxWidth, or is a single character, or is the
empty line produced for an empty segment; and the output always
contains at least one line.  (The monotonicity assumption of the claim
is kept but not needed.) -/
theorem wrapLine_width_amended (m : List Char → ℚ) (w : ℚ)
    (hmono : ∀ (s : List Char) (c : Char), m s ≤ m (s ++ [c])) (text : List Char) :
    (∀ line ∈ wrapChars m w text, m line ≤ w ∨ line.length = 1 ∨ line = [])
    ∧ 1 ≤ (wrapChars m w text).length := by
  rw [wrapChars_eq]
  constructor
  · intro line hline
    rcases List.mem_flatten.mp hline with ⟨l, hl, hmem⟩
    rcases List.mem_map.mp hl with ⟨seg, _, hseg⟩
    exact wrapSeg_lines_ok m w seg line (hseg ▸ hmem)
  · rcases List.exists_cons_of_ne_nil (splitNL_ne_nil (normalizeNewlines text))
      with ⟨s0, rest, hsegs⟩
    rw [hsegs]
    simp only [List.map_cons, List.flatten_cons, List.length_append]
    have := (wrapSeg_length_bounds m w s0).1
    omega

/-! ## Claim C7: image aspect preservation -/

/-- **C7.**  For a successfully loaded image with positive dimensions,
the scale applied by `drawImagePage` is a single uniform factor: it is
positive, capped at 1, the scaled image fits the available content
area, and the drawn width-to-height ratio equals the source image's
width-to-height ratio. -/
theorem imageScale_aspect (img : Image) (hw : 0 < img.width) (hh : 0 < img.height) :
    imageScale img ≤ 1
    ∧ 0 < imageScale img
    ∧ img.width * imageScale img ≤ availableWidth
    ∧ img.height * imageScale img ≤ availableHeight
    ∧ (img.width * imageScale img) / (img.height * imageScale img)
        = img.width / img.height := by
  have haw : (0 : ℚ) < availableWidth := by norm_num [availableWidth, PAGE_WIDTH, MARGIN_X]
  have hah : (0 : ℚ) < availableHeight := by
    norm_num [availableHeight, PAGE_HEIGHT, MARGIN_TOP, MARGIN_BOTTOM]
  have hs1 : imageScale img ≤ 1 := min_le_right _ _
  have hsw : imageScale img ≤ availableWidth / img.width :=
    le_trans (min_le_left _ _) (min_le_left _ _)
  have hsh : imageScale img ≤ availableHeight / img.height :=
    le_trans (min_le_left _ _) (min_le_right _ _)
  have hspos : 0 < imageScale img :=
    lt_min (lt_min (div_pos haw hw) (div_pos hah hh)) one_pos
  refine ⟨hs1, hspos, ?_, ?_, ?_⟩
  · calc img.width * imageScale img ≤ img.width * (availableWidth / img.width) := by
          exact mul_le_mul_of_nonneg_left hsw (le_of_lt hw)
      _ = availableWidth := by field_simp
  · calc img.height * imageScale img ≤ img.height * (availableHeight / img.height) := by
          exact mul_le_mul_of_nonneg_left hsh (le_of_lt hh)
      _ = availableHeight := by field_simp
  · rw [mul_div_mul_right _ _ (ne_of_gt hspos)]

/-- Witness for C7 at a concrete 500×400 image. -/
theorem imageScale_aspect_witness :
    (0 : ℚ) < (500 : ℚ) ∧ (0 : ℚ) < (400 : ℚ)
    ∧ (imageScale { width := 500, height := 400 } ≤ 1
    ∧ 0 < imageScale { width := 500, height := 400 }
    ∧ (500 : ℚ) * imageScale { width := 500, height := 400 } ≤ availableWidth
    ∧ (400 : ℚ) * imageScale { width := 500, height := 400 } ≤ availableHeight
    ∧ ((500 : ℚ) * imageScale { width := 500, height := 400 })
        / ((400 : ℚ) * imageScale { width := 500, height := 400 })
        = (500 : ℚ) / (400 : ℚ)) :=
  ⟨by norm_num, by norm_num,
    imageScale_aspect { width := 500, height := 400 } (by norm_num) (by norm_num)⟩

/-! ## Claim C2: bullets are atomic with respect to pagination -/

lemma paintLinesAt_pages (f c : String) (x : ℚ) (lh : ℕ) :
    ∀ (lines : List String) (st : GenSt) (y : ℕ),
      (paintLinesAt f c x lh st y lines).pages = st.pages := by
  intro lines
  induction lines with
  | nil => intro st y; rfl
  | cons line rest ih =>
    intro st y
    rw [paintLinesAt]
    rw [ih]
    rfl

lemma paintLinesAt_canvas_grows (f c : String) (x : ℚ) (lh : ℕ) :
    ∀ (lines : List String) (st : GenSt) (y : ℕ),
      ∃ t, (paintLinesAt f c x lh st y lines).cur.canvas = st.cur.canvas ++ t := by
  intro lines
  induction lines with
  | nil => intro st y; exact ⟨[], by simp [paintLinesAt]⟩
  | cons line rest ih =>
    intro st y
    rw [paintLinesAt]
    rcases ih (logBlock (paintText st f c line x y) ((y + lh : ℕ) : ℚ)) (y + lh) with ⟨t, ht⟩
    exact ⟨[Paint.text f c line x y] ++ t, by
      rw [ht]; simp [logBlock, paintText]⟩

lemma paintLinesAt_mem (f c : String) (x : ℚ) (lh : ℕ) :
    ∀ (lines : List String) (st : GenSt) (y : ℕ) (i : ℕ) (hi : i < lines.length),
      Paint.text f c (lines.get ⟨i, hi⟩) x (y + i * lh)
        ∈ (paintLinesAt f c x lh st y lines).cur.canvas := by
  intro lines
  induction lines with
  | nil => intro st y i hi; exact absurd hi (by simp)
  | cons line rest ih =>
    intro st y i hi
    rw [paintLinesAt]
    cases i with
    | zero =>
      rcases paintLinesAt_canvas_grows f c x lh rest
        (logBlock (paintText st f c line x y) ((y + lh : ℕ) : ℚ)) (y + lh) with ⟨t, ht⟩
      rw [ht]
      simp [logBlock, paintText]
    | succ j =>
      have hj : j < rest.length := by simpa using Nat.lt_of_succ_lt_succ hi
      have base := ih (logBlock (paintText st f c line x y) ((y + lh : ℕ) : ℚ)) (y + lh) j hj
      have harith : y + lh + j * lh = y + (j + 1) * lh := by ring
      rw [harith] at base
      simpa using base

/-- **C2.**  Each bullet is atomic with respect to pagination: given a
bullet whose wrapped height is less than one full page's content
height, `drawBullet` (the loop body of `drawBulletList`) checks
overflow once against the bullet's total height before drawing
anything, commits no page while the bullet's lines are painted, and
paints every wrapped line of the bullet onto the single canvas that is
current after that check. -/
theorem drawBullet_atomic (m : Measure) (opts : BulletOpts) (cb : GenSt → GenSt)
    (st : GenSt) (bullet : String)
    (hsmall : max opts.lineHeight
        ((wrapLine (m (buildFont 16)) bullet ((PAGE_WIDTH - MARGIN_X * 2 - 24 : ℕ) : ℚ)).length
          * opts.lineHeight)
      < PAGE_HEIGHT - MARGIN_TOP - MARGIN_BOTTOM) :
    (drawBullet m opts cb st bullet).pages
      = (if st.cur.cursorY + max opts.lineHeight
            ((wrapLine (m (buildFont 16)) bullet ((PAGE_WIDTH - MARGIN_X * 2 - 24 : ℕ) : ℚ)).length
              * opts.lineHeight) > bottomY
          then cb st else st).pages
    ∧ ∀ (i : ℕ) (hi : i < (wrapLine (m (buildFont 16)) bullet
          ((PAGE_WIDTH - MARGIN_X * 2 - 24 : ℕ) : ℚ)).length),
        Paint.text (buildFont 16) BODY_COLOR
          ((wrapLine (m (buildFont 16)) bullet ((PAGE_WIDTH - MARGIN_X * 2 - 24 : ℕ) : ℚ)).get ⟨i, hi⟩)
          ((MARGIN_X + 24 : ℕ) : ℚ)
          ((if st.cur.cursorY + max opts.lineHeight
              ((wrapLine (m (buildFont 16)) bullet ((PAGE_WIDTH - MARGIN_X * 2 - 24 : ℕ) : ℚ)).length
                * opts.lineHeight) > bottomY
            then cb st else st).cur.cursorY + i * opts.lineHeight)
          ∈ (drawBullet m opts cb st bullet).cur.canvas := by
  set L := wrapLine (m (buildFont 16)) bullet ((PAGE_WIDTH - MARGIN_X * 2 - 24 : ℕ) : ℚ) with hL
  set s1 := if st.cur.cursorY + max opts.lineHeight (L.length * opts.lineHeight) > bottomY
    then cb st else st with hs1
  have hred : drawBullet m opts cb st bullet
      = advance (setCursor
          (paintLinesAt (buildFont 16) BODY_COLOR ((MARGIN_X + 24 : ℕ) : ℚ)
            opts.lineHeight
            (paintText s1 (buildFont 16) BODY_COLOR "•" MARGIN_X s1.cur.cursorY)
            s1.cur.cursorY L)
          (max (s1.cur.cursorY + max opts.lineHeight (L.length * opts.lineHeight))
            (s1.cur.cursorY + L.length * opts.lineHeight)))
        opts.bulletSpacing := by
    rw [drawBullet, ← hL, ← hs1]
  constructor
  · rw [hred]
    show (paintLinesAt _ _ _ _ _ _ _).pages = s1.pages
    rw [paintLinesAt_pages]
    rfl
  · intro i hi
    rw [hred]
    show Paint.text _ _ _ _ _ ∈ (paintLinesAt _ _ _ _ _ _ _).cur.canvas
    have base := paintLinesAt_mem (buildFont 16) BODY_COLOR ((MARGIN_X + 24 : ℕ) : ℚ)
      opts.lineHeight L
      (paintText s1 (buildFont 16) BODY_COLOR "•" MARGIN_X s1.cur.cursorY)
      s1.cur.cursorY i hi
    simpa [paintText] using base

/-- Witness for C2 at a concrete bullet and state. -/
theorem drawBullet_atomic_witness :
    (max ({} : BulletOpts).lineHeight
        ((wrapLine (mNarrow (buildFont 16)) "ab" ((PAGE_WIDTH - MARGIN_X * 2 - 24 : ℕ) : ℚ)).length
          * ({} : BulletOpts).lineHeight)
      < PAGE_HEIGHT - MARGIN_TOP - MARGIN_BOTTOM)
    ∧ ((drawBullet mNarrow {} id initSt "ab").pages
        = (if initSt.cur.cursorY
              + max ({} : BulletOpts).lineHeight
                ((wrapLine (mNarrow (buildFont 16)) "ab" ((PAGE_WIDTH - MARGIN_X * 2 - 24 : ℕ) : ℚ)).length
                  * ({} : BulletOpts).lineHeight) > bottomY
            then id initSt else initSt).pages
    ∧ ∀ (i : ℕ) (hi : i < (wrapLine (mNarrow (buildFont 16)) "ab"
          ((PAGE_WIDTH - MARGIN_X * 2 - 24 : ℕ) : ℚ)).length),
        Paint.text (buildFont 16) BODY_COLOR
          ((wrapLine (mNarrow (buildFont 16)) "ab" ((PAGE_WIDTH - MARGIN_X * 2 - 24 : ℕ) : ℚ)).get ⟨i, hi⟩)
          ((MARGIN_X + 24 : ℕ) : ℚ)
          ((if initSt.cur.cursorY
              + max ({} : BulletOpts).lineHeight
                ((wrapLine (mNarrow (buildFont 16)) "ab" ((PAGE_WIDTH - MARGIN_X * 2 - 24 : ℕ) : ℚ)).length
                  * ({} : BulletOpts).lineHeight) > bottomY
            then id initSt else initSt).cur.cursorY
            + i * ({} : BulletOpts).lineHeight)
          ∈ (drawBullet mNarrow {} id initSt "ab").cur.canvas) :=
  ⟨by decide, drawBullet_atomic mNarrow {} id initSt "ab" (by decide)⟩

/-! ## Paint monotonicity: drawing operations only append paints -/

lemma paintExtends_refl (st : GenSt) : PaintExtends st st := ⟨[], by simp⟩

lemma paintExtends_trans {a b c : GenSt} (h1 : PaintExtends a b) (h2 : PaintExtends b c) :
    PaintExtends a c := by
  rcases h1 with ⟨t1, ht1⟩
  rcases h2 with ⟨t2, ht2⟩
  exact ⟨t1 ++ t2, by rw [ht2, ht1, List.append_assoc]⟩

lemma mem_allPaints_of_extends {a b : GenSt} (h : PaintExtends a b) {p : Paint}
    (hp : p ∈ allPaints a) : p ∈ allPaints b := by
  rcases h with ⟨t, ht⟩
  rw [ht]
  exact List.mem_append_left t hp

lemma paintExtends_paintText (st : GenSt) (f c s : String) (x : ℚ) (y : ℕ) :
    PaintExtends st (paintText st f c s x y) :=
  ⟨[Paint.text f c s x y], by simp [allPaints, paintText]⟩

lemma paintExtends_paintImg (st : GenSt) (u : String) (x : ℚ) (y : ℕ) (w h : ℚ) :
    PaintExtends st (paintImg st u x y w h) :=
  ⟨[Paint.img u x y w h], by simp [allPaints, paintImg]⟩

lemma paintExtends_advance (st : GenSt) (n : ℕ) : PaintExtends st (advance st n) :=
  ⟨[], by simp [allPaints, advance]⟩

lemma paintExtends_setCursor (st : GenSt) (y : ℕ) : PaintExtends st (setCursor st y) :=
  ⟨[], by simp [allPaints, setCursor]⟩

lemma paintExtends_logBlock (st : GenSt) (b : ℚ) : PaintExtends st (logBlock st b) :=
  ⟨[], by simp [allPaints, logBlock]⟩

lemma paintExtends_commitPage (m : Measure) (st : GenSt) :
    PaintExtends st (commitPage m st) :=
  ⟨[footerPaint m st.cur.pageNumber, Paint.rect 0 0 PAGE_WIDTH PAGE_HEIGHT "#ffffff"],
    by simp [allPaints, commitPage, createPage]⟩

lemma paintExtends_ensureSpace (m : Measure) (st : GenSt) (n : ℕ) :
    PaintExtends st (ensureSpace m st n) := by
  unfold ensureSpace
  by_cases h : st.cur.cursorY + n > bottomY
  · rw [if_pos h]; exact paintExtends_commitPage m st
  · rw [if_neg h]; exact paintExtends_refl st

lemma paintExtends_drawParaLines (opts : ParaOpts) (cb : GenSt → GenSt)
    (hcb : ∀ s, PaintExtends s (cb s)) :
    ∀ (lines : List String) (st : GenSt),
      PaintExtends st (drawParaLines opts cb st lines) := by
  intro lines
  induction lines with
  | nil => intro st; exact paintExtends_refl st
  | cons line rest ih =>
    intro st
    rw [drawParaLines]
    refine paintExtends_trans ?_ (ih _)
    refine paintExtends_trans ?_ (paintExtends_advance _ _)
    refine paintExtends_trans ?_ (paintExtends_logBlock _ _)
    by_cases h : st.cur.cursorY + opts.lineHeight > bottomY
    · rw [if_pos h]
      exact paintExtends_trans (hcb st) (paintExtends_paintText _ _ _ _ _ _)
    · rw [if_neg h]
      exact paintExtends_paintText _ _ _ _ _ _

lemma paintExtends_drawParagraph (m : Measure) (opts : ParaOpts) (cb : GenSt → GenSt)
    (hcb : ∀ s, PaintExtends s (cb s)) (st : GenSt) (text : String) :
    PaintExtends st (drawParagraph m opts cb st text) :=
  paintExtends_trans (paintExtends_drawParaLines opts cb hcb _ st) (paintExtends_advance _ _)

lemma paintExtends_paintLinesAt (f c : String) (x : ℚ) (lh : ℕ) :
    ∀ (lines : List String) (st : GenSt) (y : ℕ),
      PaintExtends st (paintLinesAt f c x lh st y lines) := by
  intro lines
  induction lines with
  | nil => intro st y; exact paintExtends_refl st
  | cons line rest ih =>
    intro st y
    rw [paintLinesAt]
    refine paintExtends_trans ?_ (ih _ _)
    exact paintExtends_trans (paintExtends_paintText _ _ _ _ _ _) (paintExtends_logBlock _ _)

lemma paintExtends_drawBullet (m : Measure) (opts : BulletOpts) (cb : GenSt → GenSt)
    (hcb : ∀ s, PaintExtends s (cb s)) (st : GenSt) (b : String) :
    PaintExtends st (drawBullet m opts cb st b) := by
  rw [drawBullet]
  refine paintExtends_trans ?_ (paintExtends_advance _ _)
  refine paintExtends_trans ?_ (paintExtends_setCursor _ _)
  refine paintExtends_trans ?_ (paintExtends_paintLinesAt _ _ _ _ _ _ _)
  refine paintExtends_trans ?_ (paintExtends_paintText _ _ _ _ _ _)
  by_cases h : st.cur.cursorY
      + max opts.lineHeight
        ((wrapLine (m (buildFont 16)) b ((PAGE_WIDTH - MARGIN_X * 2 - 24 : ℕ) : ℚ)).length
          * opts.lineHeight) > bottomY
  · rw [if_pos h]; exact hcb st
  · rw [if_neg h]; exact paintExtends_refl st

lemma paintExtends_drawBulletList (m : Measure) (opts : BulletOpts) (cb : GenSt → GenSt)
    (hcb : ∀ s, PaintExtends s (cb s)) :
    ∀ (bullets : List String) (st : GenSt),
      PaintExtends st (drawBulletList m opts cb st bullets) := by
  intro bullets
  induction bullets with
  | nil => intro st; exact paintExtends_refl st
  | cons b rest ih =>
    intro st
    show PaintExtends st (List.foldl (drawBullet m opts cb) (drawBullet m opts cb st b) rest)
    exact paintExtends_trans (paintExtends_drawBullet m opts cb hcb st b) (ih _)

lemma paintExtends_drawSectionHeading (m : Measure) (st : GenSt) (t : String) :
    PaintExtends st (drawSectionHeading m st t) := by
  unfold drawSectionHeading
  exact paintExtends_trans (paintExtends_ensureSpace _ _ _)
    (paintExtends_trans (paintExtends_paintText _ _ _ _ _ _) (paintExtends_advance _ _))

lemma paintExtends_drawSubHeading (m : Measure) (st : GenSt) (t : String) :
    PaintExtends st (drawSubHeading m st t) := by
  unfold drawSubHeading
  exact paintExtends_trans (paintExtends_ensureSpace _ _ _)
    (paintExtends_trans (paintExtends_paintText _ _ _ _ _ _) (paintExtends_advance _ _))

lemma paintExtends_drawPageSummaryHeading (st : GenSt) :
    PaintExtends st (drawPageSummaryHeading st) :=
  paintExtends_trans (paintExtends_paintText _ _ _ _ _ _) (paintExtends_advance _ _)

lemma paintExtends_summaryHeadFull (m : Measure) (s : PdfPageSummary) (st : GenSt) :
    PaintExtends st (summaryHeadFull m s st) := by
  unfold summaryHeadFull
  exact paintExtends_trans (paintExtends_paintText _ _ _ _ _ _)
    (paintExtends_trans (paintExtends_paintText _ _ _ _ _ _) (paintExtends_advance _ _))

lemma paintExtends_summaryHeadBare (s : PdfPageSummary) (st : GenSt) :
    PaintExtends st (summaryHeadBare s st) :=
  paintExtends_trans (paintExtends_paintText _ _ _ _ _ _) (paintExtends_advance _ _)

lemma paintExtends_summaryBareCb (m : Measure) (s : PdfPageSummary) (t : GenSt) :
    PaintExtends t (summaryBareCb m s t) :=
  paintExtends_trans (paintExtends_commitPage _ _)
    (paintExtends_trans (paintExtends_drawPageSummaryHeading _)
      (paintExtends_summaryHeadBare _ _))

lemma paintExtends_summaryFullCb (m : Measure) (s : PdfPageSummary) (t : GenSt) :
    PaintExtends t (summaryFullCb m s t) :=
  paintExtends_trans (paintExtends_commitPage _ _)
    (paintExtends_trans (paintExtends_drawPageSummaryHeading _)
      (paintExtends_summaryHeadFull _ _ _))

lemma paintExtends_summaryBulletPart (m : Measure) (s : PdfPageSummary) (t : GenSt) :
    PaintExtends t (summaryBulletPart m s t) := by
  unfold summaryBulletPart
  by_cases hb : s.bullets ≠ []
  · rw [if_pos hb]
    exact paintExtends_drawBulletList m {} _ (paintExtends_summaryFullCb m s) s.bullets t
  · rw [if_neg hb]
    exact paintExtends_drawParagraph m _ _ (paintExtends_summaryBareCb m s) t _

lemma paintExtends_summaryKeywordPart (m : Measure) (s : PdfPageSummary) (t : GenSt) :
    PaintExtends t (summaryKeywordPart m s t) := by
  unfold summaryKeywordPart
  by_cases hk : s.keywords ≠ []
  · rw [if_pos hk]
    exact paintExtends_drawParagraph m _ _ (paintExtends_summaryBareCb m s) t _
  · rw [if_neg hk]
    exact paintExtends_refl t

lemma paintExtends_summarySkipPart (m : Measure) (s : PdfPageSummary) (t : GenSt) :
    PaintExtends t (summarySkipPart m s t) := by
  unfold summarySkipPart
  by_cases hs : s.skipped ∧ strTruthy s.skip_reason
  · rw [if_pos hs]
    exact paintExtends_drawParagraph m _ _ (paintExtends_summaryBareCb m s) t _
  · rw [if_neg hs]
    exact paintExtends_advance t 18

lemma paintExtends_summaryStep (m : Measure) (st : GenSt) (s : PdfPageSummary) :
    PaintExtends st (summaryStep m st s) := by
  unfold summaryStep
  exact paintExtends_trans (paintExtends_ensureSpace m st 160)
    (paintExtends_trans (paintExtends_summaryHeadFull m s _)
      (paintExtends_trans (paintExtends_summaryBulletPart m s _)
        (paintExtends_trans (paintExtends_summaryKeywordPart m s _)
          (paintExtends_summarySkipPart m s _))))

lemma paintExtends_foldl_summaries (m : Measure) :
    ∀ (ss : List PdfPageSummary) (st : GenSt),
      PaintExtends st (ss.foldl (summaryStep m) st) := by
  intro ss
  induction ss with
  | nil => intro st; exact paintExtends_refl st
  | cons s rest ih =>
    intro st
    exact paintExtends_trans (paintExtends_summaryStep m st s) (ih _)

lemma paintExtends_drawImageContent (m : Measure) (load : String → Except String Image)
    (st : GenSt) (url : Option String) :
    PaintExtends st (drawImageContent m load st url) := by
  match url with
  | none =>
    exact paintExtends_drawParagraph m _ _ (fun s => paintExtends_refl s) st _
  | some u =>
    rw [drawImageContent]
    by_cases hu : u = ""
    · rw [if_pos hu]
      exact paintExtends_drawParagraph m _ _ (fun s => paintExtends_refl s) st _
    · rw [if_neg hu]
      rcases load u with e | img
      · exact paintExtends_drawParagraph m _ _ (fun s => paintExtends_refl s) st _
      · exact paintExtends_trans (paintExtends_paintImg _ _ _ _ _ _) (paintExtends_logBlock _ _)

lemma paintExtends_drawImagePage (m : Measure) (load : String → Except String Image)
    (st : GenSt) (t : String) (url : Option String) :
    PaintExtends st (drawImagePage m load st t url) := by
  have h0 : PaintExtends st (if st.cur.cursorY ≠ MARGIN_TOP then commitPage m st else st) := by
    by_cases h : st.cur.cursorY ≠ MARGIN_TOP
    · rw [if_pos h]; exact paintExtends_commitPage _ _
    · rw [if_neg h]; exact paintExtends_refl _
  exact paintExtends_trans h0
    (paintExtends_trans (paintExtends_paintText _ _ _ _ _ _)
      (paintExtends_trans (paintExtends_advance _ _)
        (paintExtends_trans (paintExtends_drawImageContent m load _ url)
          (paintExtends_commitPage _ _))))

lemma paintExtends_titleBlock (p : PdfAnalysisPayload) (st : GenSt) :
    PaintExtends st (titleBlock p st) := by
  unfold titleBlock
  exact paintExtends_trans (paintExtends_paintText _ _ _ _ _ _)
    (paintExtends_trans (paintExtends_advance _ _)
      (paintExtends_trans (paintExtends_paintText _ _ _ _ _ _)
        (paintExtends_trans (paintExtends_advance _ _)
          (paintExtends_trans (paintExtends_paintText _ _ _ _ _ _)
            (paintExtends_advance _ _)))))

lemma paintExtends_globalSummarySection (m : Measure) (p : PdfAnalysisPayload) (st : GenSt) :
    PaintExtends st (globalSummarySection m p st) := by
  unfold globalSummarySection
  have hcb : ∀ s : GenSt, PaintExtends s (drawSectionHeading m (commitPage m s) "全局摘要") := by
    intro s
    exact paintExtends_trans (paintExtends_commitPage _ _) (paintExtends_drawSectionHeading _ _ _)
  have hmid : ∀ t : GenSt, PaintExtends t
      (if p.globalSummary.bullets ≠ [] then
        drawBulletList m {} (fun s => drawSectionHeading m (commitPage m s) "全局摘要")
          t p.globalSummary.bullets
      else drawParagraph m { color := MUTED_COLOR } id t "尚未提供全局摘要。") := by
    intro t
    by_cases hb : p.globalSummary.bullets ≠ []
    · rw [if_pos hb]
      exact paintExtends_drawBulletList m {} _ hcb p.globalSummary.bullets t
    · rw [if_neg hb]
      exact paintExtends_drawParagraph m _ _ (fun s => paintExtends_refl s) t _
  exact paintExtends_trans (paintExtends_drawSectionHeading m st "全局摘要")
    (paintExtends_trans (hmid _) (paintExtends_advance _ _))

lemma paintExtends_expansionCb (m : Measure) (sub : String) (s : GenSt) :
    PaintExtends s (expansionCb m sub s) := by
  unfold expansionCb
  exact paintExtends_trans (paintExtends_commitPage _ _)
    (paintExtends_trans (paintExtends_drawSectionHeading _ _ _) (paintExtends_drawSubHeading _ _ _))

lemma paintExtends_expansionsSection (m : Measure) (p : PdfAnalysisPayload) (st : GenSt) :
    PaintExtends st (expansionsSection m p st) := by
  unfold expansionsSection
  exact paintExtends_trans (paintExtends_drawSectionHeading m st "延伸說明")
    (paintExtends_trans (paintExtends_drawSubHeading m _ "關鍵結論")
      (paintExtends_trans (paintExtends_drawParagraph m _ _ (paintExtends_expansionCb m _) _ _)
        (paintExtends_trans (paintExtends_drawSubHeading m _ "核心資料")
          (paintExtends_trans (paintExtends_drawParagraph m _ _ (paintExtends_expansionCb m _) _ _)
            (paintExtends_trans (paintExtends_drawSubHeading m _ "風險與建議")
              (paintExtends_trans (paintExtends_drawParagraph m _ _ (paintExtends_expansionCb m _) _ _)
                (paintExtends_advance _ _)))))))

lemma paintExtends_keywordsSection (m : Measure) (p : PdfAnalysisPayload) (st : GenSt) :
    PaintExtends st (keywordsSection m p st) := by
  unfold keywordsSection
  have hcb : ∀ s : GenSt, PaintExtends s (drawSectionHeading m (commitPage m s) "整體關鍵字") := by
    intro s
    exact paintExtends_trans (paintExtends_commitPage _ _) (paintExtends_drawSectionHeading _ _ _)
  by_cases hk : p.aggregatedKeywords ≠ []
  · rw [if_pos hk]
    exact paintExtends_trans (paintExtends_drawSectionHeading m st "整體關鍵字")
      (paintExtends_drawParagraph m _ _ hcb _ _)
  · rw [if_neg hk]
    exact paintExtends_trans (paintExtends_drawSectionHeading m st "整體關鍵字")
      (paintExtends_drawParagraph m _ _ (fun s => paintExtends_refl s) _ _)

/-- Every state reached during the layout pass extends the paints of
the state at any earlier point; in particular the whole run only
appends paints. -/
lemma paintExtends_layoutRun_from (m : Measure) (load : String → Except String Image)
    (p : PdfAnalysisPayload) (st : GenSt) :
    layoutRun m load p
      = drawImagePage m load
          (drawImagePage m load
            (commitPage m (p.pageSummaries.foldl (summaryStep m)
              (drawPageSummaryHeading (commitPage m
                (keywordsSection m p (expansionsSection m p
                  (globalSummarySection m p (titleBlock p initSt))))))))
            "文字雲" p.wordcloudUrl)
          "心智圖" p.mindmapImageUrl := rfl

/-! ## Presence of paragraph lines in the output -/

lemma drawParaLines_mem (opts : ParaOpts) (cb : GenSt → GenSt)
    (hcb : ∀ s, PaintExtends s (cb s)) :
    ∀ (lines : List String) (st : GenSt) (line : String), line ∈ lines →
      ∃ y, Paint.text opts.font opts.color line ((MARGIN_X : ℕ) : ℚ) y
        ∈ allPaints (drawParaLines opts cb st lines) := by
  intro lines
  induction lines with
  | nil => intro st line hline; exact absurd hline (by simp)
  | cons l rest ih =>
    intro st line hline
    rw [drawParaLines]
    rcases List.mem_cons.mp hline with hline | hline
    · subst hline
      refine ⟨(if st.cur.cursorY + opts.lineHeight > bottomY then cb st else st).cur.cursorY, ?_⟩
      have hmem : Paint.text opts.font opts.color line ((MARGIN_X : ℕ) : ℚ)
          (if st.cur.cursorY + opts.lineHeight > bottomY then cb st else st).cur.cursorY
          ∈ allPaints (paintText
              (if st.cur.cursorY + opts.lineHeight > bottomY then cb st else st)
              opts.font opts.color line MARGIN_X
              (if st.cur.cursorY + opts.lineHeight > bottomY then cb st else st).cur.cursorY) := by
        simp [allPaints, paintText]
      exact mem_allPaints_of_extends
        (paintExtends_trans (paintExtends_logBlock _ _)
          (paintExtends_trans (paintExtends_advance _ _)
            (paintExtends_drawParaLines opts cb hcb rest _))) hmem
    · exact ih _ line hline

lemma drawParagraph_mem (m : Measure) (opts : ParaOpts) (cb : GenSt → GenSt)
    (hcb : ∀ s, PaintExtends s (cb s)) (st : GenSt) (text : String) :
    ∀ line ∈ wrapLine (m opts.font) text ((PAGE_WIDTH - MARGIN_X * 2 : ℕ) : ℚ),
      ∃ y, Paint.text opts.font opts.color line ((MARGIN_X : ℕ) : ℚ) y
        ∈ allPaints (drawParagraph m opts cb st text) := by
  intro line hline
  rcases drawParaLines_mem opts cb hcb _ st line hline with ⟨y, hy⟩
  exact ⟨y, mem_allPaints_of_extends (paintExtends_advance _ _) hy⟩

/-! ## Success of generation under a healthy environment -/

lemma assemble_ok (env : Env) (hpng : env.pngOk = true) (pages : List (List Paint)) :
    assemble env pages = Except.ok (pages.map embedPage) := by
  induction pages with
  | nil => rfl
  | cons c rest ih =>
    rw [assemble, canvasToPngBytes, if_pos hpng, ih]
    rfl

/-- With a working 2D context and PNG conversion,
`generateAnalysisPdf` always resolves, whatever the payload and
however the image loads behave. -/
lemma generateAnalysisPdf_ok (env : Env) (m : Measure) (p : PdfAnalysisPayload)
    (hc : env.canvasOk = true) (hpng : env.pngOk = true) :
    generateAnalysisPdf env m p
      = Except.ok
          { pages := (layoutRun m env.loadImage p).pages
            finalCanvas := (layoutRun m env.loadImage p).cur.canvas
            finalCursor := (layoutRun m env.loadImage p).cur.cursorY
            finalPageNumber := (layoutRun m env.loadImage p).cur.pageNumber
            blockLog := (layoutRun m env.loadImage p).blockLog
            pdf := (layoutRun m env.loadImage p).pages.map embedPage } := by
  unfold generateAnalysisPdf
  rw [if_pos hc]
  simp only [assemble_ok env hpng]

/-! ## Placeholder presence lemmas -/

/-- Newline-free text is unchanged by normalization. -/
lemma normalizeNewlines_id :
    ∀ (text : List Char), '\r' ∉ text → normalizeNewlines text = text := by
  intro text
  induction text with
  | nil => intro _; rfl
  | cons c rest ih =>
    intro hcr
    have hc : c ≠ '\r' := fun h => hcr (h ▸ List.mem_cons_self c rest)
    have hrest : '\r' ∉ rest := fun h => hcr (List.mem_cons_of_mem c h)
    cases rest with
    | nil => simp [normalizeNewlines, hc]
    | cons d rest2 =>
      rw [normalizeNewlines, if_neg hc, ih hrest]

/-- Newline-free text forms a single segment. -/
lemma splitNL_single :
    ∀ (text : List Char), text ≠ [] → '\n' ∉ text → splitNL text = [text] := by
  intro text
  induction text with
  | nil => intro h _; exact absurd rfl h
  | cons c rest ih =>
    intro _ hnl
    have hc : c ≠ '\n' := fun h => hnl (h ▸ List.mem_cons_self c rest)
    have hrest : '\n' ∉ rest := fun h => hnl (List.mem_cons_of_mem c h)
    cases rest with
    | nil => simp [splitNL, hc]
    | cons d rest2 =>
      rw [splitNL, if_neg hc, ih (by simp) hrest]

/-- A space-free, newline-free nonempty text wraps to lines whose
concatenation is exactly the text: nothing of it is lost. -/
lemma wrapChars_flatten_no_space (m : List Char → ℚ) (w : ℚ) (text : List Char)
    (h1 : text ≠ []) (hnl : '\n' ∉ text) (hcr : '\r' ∉ text) (hsp : ' ' ∉ text) :
    (wrapChars m w text).flatten = text := by
  rw [wrapChars_eq, normalizeNewlines_id text hcr, splitNL_single text h1 hnl]
  have hsub := wrapSeg_flatten_sublist m w text
  have hfil := wrapSeg_flatten_filter m w text
  have htext : text.filter notSpace = text := by
    apply List.filter_eq_self.mpr
    intro c hc
    exact notSpace_of_ne (fun h => hsp (h ▸ hc))
  have hflat : (wrapSeg m w text).flatten.filter notSpace = (wrapSeg m w text).flatten := by
    apply List.filter_eq_self.mpr
    intro c hc
    exact notSpace_of_ne (fun h => hsp (h ▸ hsub.mem hc))
  simp only [List.map_cons, List.map_nil, List.flatten_cons, List.flatten_nil,
    List.append_nil]
  rw [← hflat, hfil, htext]

/-- 全局摘要 with no bullets paints every wrapped line of the muted
placeholder. -/
lemma globalSummarySection_mem_placeholder (m : Measure) (p : PdfAnalysisPayload)
    (st : GenSt) (hb : p.globalSummary.bullets = []) :
    ∀ line ∈ wrapLine (m (buildFont 16)) "尚未提供全局摘要。" ((PAGE_WIDTH - MARGIN_X * 2 : ℕ) : ℚ),
      ∃ y, Paint.text (buildFont 16) MUTED_COLOR line ((MARGIN_X : ℕ) : ℚ) y
        ∈ allPaints (globalSummarySection m p st) := by
  intro line hline
  have hred : globalSummarySection m p st
      = advance (drawParagraph m { color := MUTED_COLOR } id
          (drawSectionHeading m st "全局摘要") "尚未提供全局摘要。") SECTION_GAP := by
    simp only [globalSummarySection]
    rw [if_neg (by simp [hb])]
  rw [hred]
  rcases drawParagraph_mem m { color := MUTED_COLOR } id (fun s => paintExtends_refl s)
    (drawSectionHeading m st "全局摘要") "尚未提供全局摘要。" line hline with ⟨y, hy⟩
  exact ⟨y, mem_allPaints_of_extends (paintExtends_advance _ _) hy⟩

/-- 整體關鍵字 with no keywords paints every wrapped line of the muted
placeholder. -/
lemma keywordsSection_mem_placeholder (m : Measure) (p : PdfAnalysisPayload)
    (st : GenSt) (hk : p.aggregatedKeywords = []) :
    ∀ line ∈ wrapLine (m (buildFont 16)) "暫無整體關鍵字資料。" ((PAGE_WIDTH - MARGIN_X * 2 : ℕ) : ℚ),
      ∃ y, Paint.text (buildFont 16) MUTED_COLOR line ((MARGIN_X : ℕ) : ℚ) y
        ∈ allPaints (keywordsSection m p st) := by
  intro line hline
  have hred : keywordsSection m p st
      = drawParagraph m { color := MUTED_COLOR } id
          (drawSectionHeading m st "整體關鍵字") "暫無整體關鍵字資料。" := by
    simp only [keywordsSection]
    rw [if_neg (by simp [hk])]
  rw [hred]
  exact drawParagraph_mem m { color := MUTED_COLOR } id (fun s => paintExtends_refl s)
    (drawSectionHeading m st "整體關鍵字") "暫無整體關鍵字資料。" line hline

/-- Each empty expansion field paints every wrapped line of 暫無資料 in
the default body color. -/
lemma expansionsSection_mem_kc (m : Measure) (p : PdfAnalysisPayload) (st : GenSt)
    (h : p.globalSummary.expansions.key_conclusions = "") :
    ∀ line ∈ wrapLine (m (buildFont 16)) "暫無資料" ((PAGE_WIDTH - MARGIN_X * 2 : ℕ) : ℚ),
      ∃ y, Paint.text (buildFont 16) BODY_COLOR line ((MARGIN_X : ℕ) : ℚ) y
        ∈ allPaints (expansionsSection m p st) := by
  intro line hline
  unfold expansionsSection
  rw [if_pos h]
  rcases drawParagraph_mem m { gapAfter := 16 } (expansionCb m "關鍵結論")
    (paintExtends_expansionCb m "關鍵結論")
    (drawSubHeading m (drawSectionHeading m st "延伸說明") "關鍵結論") "暫無資料"
    line hline with ⟨y, hy⟩
  refine ⟨y, mem_allPaints_of_extends ?_ hy⟩
  exact paintExtends_trans (paintExtends_drawSubHeading m _ "核心資料")
    (paintExtends_trans (paintExtends_drawParagraph m _ _ (paintExtends_expansionCb m _) _ _)
      (paintExtends_trans (paintExtends_drawSubHeading m _ "風險與建議")
        (paintExtends_trans (paintExtends_drawParagraph m _ _ (paintExtends_expansionCb m _) _ _)
          (paintExtends_advance _ _))))

/-- An empty `core_data` expansion field paints every wrapped line of
暫無資料 in the default body color. -/
lemma expansionsSection_mem_cd (m : Measure) (p : PdfAnalysisPayload) (st : GenSt)
    (h : p.globalSummary.expansions.core_data = "") :
    ∀ line ∈ wrapLine (m (buildFont 16)) "暫無資料" ((PAGE_WIDTH - MARGIN_X * 2 : ℕ) : ℚ),
      ∃ y, Paint.text (buildFont 16) BODY_COLOR line ((MARGIN_X : ℕ) : ℚ) y
        ∈ allPaints (expansionsSection m p st) := by
  intro line hline
  unfold expansionsSection
  rw [if_pos h]
  rcases drawParagraph_mem m { gapAfter := 16 } (expansionCb m "核心資料")
    (paintExtends_expansionCb m "核心資料")
    (drawSubHeading m (drawParagraph m { gapAfter := 16 } (expansionCb m "關鍵結論")
      (drawSubHeading m (drawSectionHeading m st "延伸說明") "關鍵結論")
      (if p.globalSummary.expansions.key_conclusions = "" then "暫無資料"
       else p.globalSummary.expansions.key_conclusions)) "核心資料")
    "暫無資料" line hline with ⟨y, hy⟩
  refine ⟨y, mem_allPaints_of_extends ?_ hy⟩
  exact paintExtends_trans (paintExtends_drawSubHeading m _ "風險與建議")
    (paintExtends_trans (paintExtends_drawParagraph m _ _ (paintExtends_expansionCb m _) _ _)
      (paintExtends_advance _ _))

/-- An empty `risks_and_actions` expansion field paints every wrapped
line of 暫無資料 in the default body color. -/
lemma expansionsSection_mem_ra (m : Measure) (p : PdfAnalysisPayload) (st : GenSt)
    (h : p.globalSummary.expansions.risks_and_actions = "") :
    ∀ line ∈ wrapLine (m (buildFont 16)) "暫無資料" ((PAGE_WIDTH - MARGIN_X * 2 : ℕ) : ℚ),
      ∃ y, Paint.text (buildFont 16) BODY_COLOR line ((MARGIN_X : ℕ) : ℚ) y
        ∈ allPaints (expansionsSection m p st) := by
  intro line hline
  unfold expansionsSection
  rw [if_pos h]
  rcases drawParagraph_mem m {} (expansionCb m "風險與建議")
    (paintExtends_expansionCb m "風險與建議")
    (drawSubHeading m (drawParagraph m { gapAfter := 16 } (expansionCb m "核心資料")
      (drawSubHeading m (drawParagraph m { gapAfter := 16 } (expansionCb m "關鍵結論")
        (drawSubHeading m (drawSectionHeading m st "延伸說明") "關鍵結論")
        (if p.globalSummary.expansions.key_conclusions = "" then "暫無資料"
         else p.globalSummary.expansions.key_conclusions)) "核心資料")
      (if p.globalSummary.expansions.core_data = "" then "暫無資料"
       else p.globalSummary.expansions.core_data)) "風險與建議")
    "暫無資料" line hline with ⟨y, hy⟩
  exact ⟨y, mem_allPaints_of_extends (paintExtends_advance _ _) hy⟩

/-- A page summary with an empty keyword list draws nothing for the
keyword line: that part of the step is the identity on the state. -/
lemma summaryKeywordPart_skip (m : Measure) (s : PdfPageSummary) (t : GenSt)
    (h : s.keywords = []) : summaryKeywordPart m s t = t := by
  unfold summaryKeywordPart
  rw [if_neg (by simp [h])]

/-- A page summary with no bullets paints every wrapped line of the
muted 本頁無摘要資料。 placeholder, from any starting state. -/
lemma summaryStep_mem_placeholder (m : Measure) (s : PdfPageSummary)
    (hb : s.bullets = []) (t : GenSt) :
    ∀ line ∈ wrapLine (m (buildFont 16)) "本頁無摘要資料。" ((PAGE_WIDTH - MARGIN_X * 2 : ℕ) : ℚ),
      ∃ y, Paint.text (buildFont 16) MUTED_COLOR line ((MARGIN_X : ℕ) : ℚ) y
        ∈ allPaints (summaryStep m t s) := by
  intro line hline
  have hred : summaryBulletPart m s (summaryHeadFull m s (ensureSpace m t 160))
      = drawParagraph m { color := MUTED_COLOR, gapAfter := 10 } (summaryBareCb m s)
          (summaryHeadFull m s (ensureSpace m t 160)) "本頁無摘要資料。" := by
    unfold summaryBulletPart
    rw [if_neg (by simp [hb])]
  rcases drawParagraph_mem m { color := MUTED_COLOR, gapAfter := 10 } (summaryBareCb m s)
    (paintExtends_summaryBareCb m s)
    (summaryHeadFull m s (ensureSpace m t 160)) "本頁無摘要資料。" line hline with ⟨y, hy⟩
  refine ⟨y, ?_⟩
  unfold summaryStep
  rw [hred] at *
  exact mem_allPaints_of_extends
    (paintExtends_trans (paintExtends_summaryKeywordPart m s _)
      (paintExtends_summarySkipPart m s _)) hy

/-- Establishing a paint at one summary's step keeps it through the
rest of the fold. -/
lemma foldl_summaries_mem (m : Measure) (pr : Paint → Prop) :
    ∀ (ss : List PdfPageSummary) (st : GenSt) (s : PdfPageSummary), s ∈ ss →
      (∀ t : GenSt, ∃ q, pr q ∧ q ∈ allPaints (summaryStep m t s)) →
      ∃ q, pr q ∧ q ∈ allPaints (ss.foldl (summaryStep m) st) := by
  intro ss
  induction ss with
  | nil => intro st s hs _; exact absurd hs (by simp)
  | cons hd rest ih =>
    intro st s hs hstep
    rcases List.mem_cons.mp hs with hs | hs
    · subst hs
      rcases hstep st with ⟨q, hq, hmem⟩
      exact ⟨q, hq, mem_allPaints_of_extends (paintExtends_foldl_summaries m rest _) hmem⟩
    · exact ih (summaryStep m st hd) s hs hstep

/-! ## Claim C4: placeholders for empty optional fields (corrected) -/

/-- The state reached just before the per-page-summary loop. -/
def preSummariesState (m : Measure) (p : PdfAnalysisPayload) : GenSt :=
  drawPageSummaryHeading (commitPage m
    (keywordsSection m p (expansionsSection m p
      (globalSummarySection m p (titleBlock p initSt)))))

lemma layoutRun_extends_suffix (m : Measure) (load : String → Except String Image)
    (p : PdfAnalysisPayload) :
    PaintExtends (p.pageSummaries.foldl (summaryStep m) (preSummariesState m p))
      (layoutRun m load p) := by
  rw [paintExtends_layoutRun_from m load p initSt]
  exact paintExtends_trans (paintExtends_commitPage _ _)
    (paintExtends_trans (paintExtends_drawImagePage _ _ _ _ _)
      (paintExtends_drawImagePage _ _ _ _ _))

lemma layoutRun_extends_after_keywords (m : Measure) (load : String → Except String Image)
    (p : PdfAnalysisPayload) :
    PaintExtends (keywordsSection m p (expansionsSection m p
        (globalSummarySection m p (titleBlock p initSt))))
      (layoutRun m load p) := by
  refine paintExtends_trans ?_ (layoutRun_extends_suffix m load p)
  refine paintExtends_trans ?_ (paintExtends_foldl_summaries m p.pageSummaries _)
  exact paintExtends_trans (paintExtends_commitPage _ _)
    (paintExtends_drawPageSummaryHeading _)

lemma layoutRun_extends_after_expansions (m : Measure) (load : String → Except String Image)
    (p : PdfAnalysisPayload) :
    PaintExtends (expansionsSection m p (globalSummarySection m p (titleBlock p initSt)))
      (layoutRun m load p) :=
  paintExtends_trans (paintExtends_keywordsSection m p _)
    (layoutRun_extends_after_keywords m load p)

lemma layoutRun_extends_after_global (m : Measure) (load : String → Except String Image)
    (p : PdfAnalysisPayload) :
    PaintExtends (globalSummarySection m p (titleBlock p initSt))
      (layoutRun m load p) :=
  paintExtends_trans (paintExtends_expansionsSection m p _)
    (layoutRun_extends_after_expansions m load p)

/-- **C4 counterexample.**  At a payload whose `key_conclusions`
expansion field is empty and whose single page summary has an empty
keyword list, the generator (i) paints the 暫無資料 expansion
placeholder in the body color and never in the muted color, and (ii)
paints no keyword line at all (no painted text starts with 關鍵字：),
refuting the claim that every empty optional field renders a muted
placeholder. -/
theorem placeholders_claim_counterexample :
    (∃ y, Paint.text (buildFont 16) BODY_COLOR "暫無資料" ((MARGIN_X : ℕ) : ℚ) y
        ∈ resultAllPaints (generateAnalysisPdf envLoadFail mNarrow emptyFieldsPayload))
    ∧ (∀ q ∈ resultAllPaints (generateAnalysisPdf envLoadFail mNarrow emptyFieldsPayload),
        paintContent q = some "暫無資料" → paintTextColor q ≠ some MUTED_COLOR)
    ∧ (∀ q ∈ resultAllPaints (generateAnalysisPdf envLoadFail mNarrow emptyFieldsPayload),
        ∀ c, paintContent q = some c → ¬ (List.isPrefixOf "關鍵字：".data c.data))
    ∧ BODY_COLOR ≠ MUTED_COLOR
    ∧ emptyFieldsPayload.globalSummary.expansions.key_conclusions = ""
    ∧ summaryNoKeywords.keywords = []
    ∧ summaryNoKeywords ∈ emptyFieldsPayload.pageSummaries := by
  refine ⟨⟨368, by decide⟩, by decide, by decide, by decide, by decide, by decide, by decide⟩

/-- **C4 (amended).**  With a healthy environment, for every payload:
each of the three expansion fields, when empty, renders its
deterministic non-empty placeholder 暫無資料 in the default body color
(not muted); empty global-summary bullets and an empty aggregated
keyword list render their muted placeholders; a page summary with
empty bullets renders its muted placeholder; a page summary with an
empty keyword list renders nothing — the keyword line is skipped
entirely; and each placeholder's wrapped lines carry exactly the
placeholder's characters, so something non-empty is always painted. -/
theorem placeholders_amended (env : Env) (m : Measure) (p : PdfAnalysisPayload)
    (hc : env.canvasOk = true) (hpng : env.pngOk = true) :
    ∃ r, generateAnalysisPdf env m p = Except.ok r
    ∧ (p.globalSummary.expansions.key_conclusions = "" →
        ∀ line ∈ wrapLine (m (buildFont 16)) "暫無資料" ((PAGE_WIDTH - MARGIN_X * 2 : ℕ) : ℚ),
          ∃ y, Paint.text (buildFont 16) BODY_COLOR line ((MARGIN_X : ℕ) : ℚ) y
            ∈ r.pages.flatten ++ r.finalCanvas)
    ∧ (p.globalSummary.expansions.core_data = "" →
        ∀ line ∈ wrapLine (m (buildFont 16)) "暫無資料" ((PAGE_WIDTH - MARGIN_X * 2 : ℕ) : ℚ),
          ∃ y, Paint.text (buildFont 16) BODY_COLOR line ((MARGIN_X : ℕ) : ℚ) y
            ∈ r.pages.flatten ++ r.finalCanvas)
    ∧ (p.globalSummary.expansions.risks_and_actions = "" →
        ∀ line ∈ wrapLine (m (buildFont 16)) "暫無資料" ((PAGE_WIDTH - MARGIN_X * 2 : ℕ) : ℚ),
          ∃ y, Paint.text (buildFont 16) BODY_COLOR line ((MARGIN_X : ℕ) : ℚ) y
            ∈ r.pages.flatten ++ r.finalCanvas)
    ∧ (p.globalSummary.bullets = [] →
        ∀ line ∈ wrapLine (m (buildFont 16)) "尚未提供全局摘要。" ((PAGE_WIDTH - MARGIN_X * 2 : ℕ) : ℚ),
          ∃ y, Paint.text (buildFont 16) MUTED_COLOR line ((MARGIN_X : ℕ) : ℚ) y
            ∈ r.pages.flatten ++ r.finalCanvas)
    ∧ (p.aggregatedKeywords = [] →
        ∀ line ∈ wrapLine (m (buildFont 16)) "暫無整體關鍵字資料。" ((PAGE_WIDTH - MARGIN_X * 2 : ℕ) : ℚ),
          ∃ y, Paint.text (buildFont 16) MUTED_COLOR line ((MARGIN_X : ℕ) : ℚ) y
            ∈ r.pages.flatten ++ r.finalCanvas)
    ∧ (∀ s ∈ p.pageSummaries, s.bullets = [] →
        ∀ line ∈ wrapLine (m (buildFont 16)) "本頁無摘要資料。" ((PAGE_WIDTH - MARGIN_X * 2 : ℕ) : ℚ),
          ∃ y, Paint.text (buildFont 16) MUTED_COLOR line ((MARGIN_X : ℕ) : ℚ) y
            ∈ r.pages.flatten ++ r.finalCanvas)
    ∧ (∀ (s : PdfPageSummary) (t : GenSt), s.keywords = [] → summaryKeywordPart m s t = t)
    ∧ (wrapChars (fun l => m (buildFont 16) (String.mk l))
        ((PAGE_WIDTH - MARGIN_X * 2 : ℕ) : ℚ) "暫無資料".data).flatten = "暫無資料".data
    ∧ (wrapChars (fun l => m (buildFont 16) (String.mk l))
        ((PAGE_WIDTH - MARGIN_X * 2 : ℕ) : ℚ) "尚未提供全局摘要。".data).flatten = "尚未提供全局摘要。".data
    ∧ (wrapChars (fun l => m (buildFont 16) (String.mk l))
        ((PAGE_WIDTH - MARGIN_X * 2 : ℕ) : ℚ) "暫無整體關鍵字資料。".data).flatten = "暫無整體關鍵字資料。".data
    ∧ (wrapChars (fun l => m (buildFont 16) (String.mk l))
        ((PAGE_WIDTH - MARGIN_X * 2 : ℕ) : ℚ) "本頁無摘要資料。".data).flatten = "本頁無摘要資料。".data := by
  refine ⟨_, generateAnalysisPdf_ok env m p hc hpng, ?_, ?_, ?_, ?_, ?_, ?_, ?_, ?_, ?_, ?_, ?_⟩
  · intro hkc line hline
    rcases expansionsSection_mem_kc m p (globalSummarySection m p (titleBlock p initSt))
      hkc line hline with ⟨y, hy⟩
    exact ⟨y, mem_allPaints_of_extends (layoutRun_extends_after_expansions m env.loadImage p) hy⟩
  · intro hcd line hline
    rcases expansionsSection_mem_cd m p (globalSummarySection m p (titleBlock p initSt))
      hcd line hline with ⟨y, hy⟩
    exact ⟨y, mem_allPaints_of_extends (layoutRun_extends_after_expansions m env.loadImage p) hy⟩
  · intro hra line hline
    rcases expansionsSection_mem_ra m p (globalSummarySection m p (titleBlock p initSt))
      hra line hline with ⟨y, hy⟩
    exact ⟨y, mem_allPaints_of_extends (layoutRun_extends_after_expansions m env.loadImage p) hy⟩
  · intro hgb line hline
    rcases globalSummarySection_mem_placeholder m p (titleBlock p initSt) hgb line hline
      with ⟨y, hy⟩
    exact ⟨y, mem_allPaints_of_extends (layoutRun_extends_after_global m env.loadImage p) hy⟩
  · intro hak line hline
    rcases keywordsSection_mem_placeholder m p
      (expansionsSection m p (globalSummarySection m p (titleBlock p initSt))) hak line hline
      with ⟨y, hy⟩
    exact ⟨y, mem_allPaints_of_extends (layoutRun_extends_after_keywords m env.loadImage p) hy⟩
  · intro s hs hsb
    intro line hline
    have hstep : ∀ t : GenSt, ∃ q,
        (∃ y, q = Paint.text (buildFont 16) MUTED_COLOR line ((MARGIN_X : ℕ) : ℚ) y)
        ∧ q ∈ allPaints (summaryStep m t s) := by
      intro t
      rcases summaryStep_mem_placeholder m s hsb t line hline with ⟨y, hy⟩
      exact ⟨Paint.text (buildFont 16) MUTED_COLOR line ((MARGIN_X : ℕ) : ℚ) y, ⟨y, rfl⟩, hy⟩
    rcases foldl_summaries_mem m _ p.pageSummaries (preSummariesState m p) s hs hstep
      with ⟨q, ⟨y, hq⟩, hmem⟩
    subst hq
    exact ⟨y, mem_allPaints_of_extends (layoutRun_extends_suffix m env.loadImage p) hmem⟩
  · intro s t h
    exact summaryKeywordPart_skip m s t h
  · exact wrapChars_flatten_no_space _ _ _ (by decide) (by decide) (by decide) (by decide)
  · exact wrapChars_flatten_no_space _ _ _ (by decide) (by decide) (by decide) (by decide)
  · exact wrapChars_flatten_no_space _ _ _ (by decide) (by decide) (by decide) (by decide)
  · exact wrapChars_flatten_no_space _ _ _ (by decide) (by decide) (by decide) (by decide)

/-- Witness for C9 (amended) at the measurer `lenWidth`, maxWidth 2 and
input `"ab cd"`. -/
theorem wrapLine_width_amended_witness :
    (∀ (s : List Char) (c : Char), lenWidth s ≤ lenWidth (s ++ [c]))
    ∧ ((∀ line ∈ wrapChars lenWidth 2 "ab cd".data,
          lenWidth line ≤ 2 ∨ line.length = 1 ∨ line = [])
      ∧ 1 ≤ (wrapChars lenWidth 2 "ab cd".data).length) := by
  have hm : ∀ (s : List Char) (c : Char), lenWidth s ≤ lenWidth (s ++ [c]) := by
    intro s c
    simp only [lenWidth, List.length_append, List.length_cons, List.length_nil]
    exact_mod_cast Nat.le_succ s.length
  exact ⟨hm, wrapLine_width_amended lenWidth 2 hm "ab cd".data⟩

/-- Witness for C4 (amended) at the empty payload, exercising the
empty-expansion, empty-bullet and keyword-skip conclusions. -/
theorem placeholders_amended_witness :
    ∃ r, generateAnalysisPdf envLoadFail mNarrow emptyPayload = Except.ok r
    ∧ (∀ line ∈ wrapLine (mNarrow (buildFont 16)) "暫無資料" ((PAGE_WIDTH - MARGIN_X * 2 : ℕ) : ℚ),
        ∃ y, Paint.text (buildFont 16) BODY_COLOR line ((MARGIN_X : ℕ) : ℚ) y
          ∈ r.pages.flatten ++ r.finalCanvas)
    ∧ (∀ line ∈ wrapLine (mNarrow (buildFont 16)) "尚未提供全局摘要。" ((PAGE_WIDTH - MARGIN_X * 2 : ℕ) : ℚ),
        ∃ y, Paint.text (buildFont 16) MUTED_COLOR line ((MARGIN_X : ℕ) : ℚ) y
          ∈ r.pages.flatten ++ r.finalCanvas)
    ∧ (∀ t : GenSt, summaryKeywordPart mNarrow summaryNoKeywords t = t) := by
  rcases placeholders_amended envLoadFail mNarrow emptyPayload rfl rfl
    with ⟨r, hr, h1, _, _, h4, _, _, h7, _⟩
  exact ⟨r, hr, h1 rfl, h4 rfl, fun t => h7 summaryNoKeywords t rfl⟩

/-! ## Field computation lemmas for the drawing primitives -/

@[simp] lemma advance_pages (st : GenSt) (n : ℕ) : (advance st n).pages = st.pages := rfl
@[simp] lemma advance_cursorY (st : GenSt) (n : ℕ) :
    (advance st n).cur.cursorY = st.cur.cursorY + n := rfl
@[simp] lemma advance_pageNumber (st : GenSt) (n : ℕ) :
    (advance st n).cur.pageNumber = st.cur.pageNumber := rfl
@[simp] lemma advance_blockLog (st : GenSt) (n : ℕ) : (advance st n).blockLog = st.blockLog := rfl

@[simp] lemma paintText_pages (st : GenSt) (f c s : String) (x : ℚ) (y : ℕ) :
    (paintText st f c s x y).pages = st.pages := rfl
@[simp] lemma paintText_cursorY (st : GenSt) (f c s : String) (x : ℚ) (y : ℕ) :
    (paintText st f c s x y).cur.cursorY = st.cur.cursorY := rfl
@[simp] lemma paintText_pageNumber (st : GenSt) (f c s : String) (x : ℚ) (y : ℕ) :
    (paintText st f c s x y).cur.pageNumber = st.cur.pageNumber := rfl
@[simp] lemma paintText_blockLog (st : GenSt) (f c s : String) (x : ℚ) (y : ℕ) :
    (paintText st f c s x y).blockLog = st.blockLog := rfl

@[simp] lemma paintImg_pages (st : GenSt) (u : String) (x : ℚ) (y : ℕ) (w h : ℚ) :
    (paintImg st u x y w h).pages = st.pages := rfl
@[simp] lemma paintImg_cursorY (st : GenSt) (u : String) (x : ℚ) (y : ℕ) (w h : ℚ) :
    (paintImg st u x y w h).cur.cursorY = st.cur.cursorY := rfl
@[simp] lemma paintImg_pageNumber (st : GenSt) (u : String) (x : ℚ) (y : ℕ) (w h : ℚ) :
    (paintImg st u x y w h).cur.pageNumber = st.cur.pageNumber := rfl
@[simp] lemma paintImg_blockLog (st : GenSt) (u : String) (x : ℚ) (y : ℕ) (w h : ℚ) :
    (paintImg st u x y w h).blockLog = st.blockLog := rfl

@[simp] lemma logBlock_pages (st : GenSt) (b : ℚ) : (logBlock st b).pages = st.pages := rfl
@[simp] lemma logBlock_cursorY (st : GenSt) (b : ℚ) :
    (logBlock st b).cur.cursorY = st.cur.cursorY := rfl
@[simp] lemma logBlock_pageNumber (st : GenSt) (b : ℚ) :
    (logBlock st b).cur.pageNumber = st.cur.pageNumber := rfl
@[simp] lemma logBlock_blockLog (st : GenSt) (b : ℚ) :
    (logBlock st b).blockLog = st.blockLog ++ [b] := rfl

@[simp] lemma setCursor_pages (st : GenSt) (y : ℕ) : (setCursor st y).pages = st.pages := rfl
@[simp] lemma setCursor_cursorY (st : GenSt) (y : ℕ) : (setCursor st y).cur.cursorY = y := rfl
@[simp] lemma setCursor_pageNumber (st : GenSt) (y : ℕ) :
    (setCursor st y).cur.pageNumber = st.cur.pageNumber := rfl
@[simp] lemma setCursor_blockLog (st : GenSt) (y : ℕ) : (setCursor st y).blockLog = st.blockLog := rfl

@[simp] lemma commitPage_pages (m : Measure) (st : GenSt) :
    (commitPage m st).pages = st.pages ++ [st.cur.canvas ++ [footerPaint m st.cur.pageNumber]] := rfl
@[simp] lemma commitPage_cursorY (m : Measure) (st : GenSt) :
    (commitPage m st).cur.cursorY = MARGIN_TOP := rfl
@[simp] lemma commitPage_pageNumber (m : Measure) (st : GenSt) :
    (commitPage m st).cur.pageNumber = st.cur.pageNumber + 1 := rfl
@[simp] lemma commitPage_blockLog (m : Measure) (st : GenSt) :
    (commitPage m st).blockLog = st.blockLog := rfl

lemma ensureSpace_blockLog (m : Measure) (st : GenSt) (n : ℕ) :
    (ensureSpace m st n).blockLog = st.blockLog := by
  unfold ensureSpace
  by_cases h : st.cur.cursorY + n > bottomY
  · rw [if_pos h]; rfl
  · rw [if_neg h]

lemma drawSectionHeading_blockLog (m : Measure) (st : GenSt) (t : String) :
    (drawSectionHeading m st t).blockLog = st.blockLog := by
  unfold drawSectionHeading
  simp [ensureSpace_blockLog]

lemma drawSubHeading_blockLog (m : Measure) (st : GenSt) (t : String) :
    (drawSubHeading m st t).blockLog = st.blockLog := by
  unfold drawSubHeading
  simp [ensureSpace_blockLog]

/-! ## Claim C1: the no-overflow invariant (corrected)

The ghost `blockLog` records the bottom edge of every drawn content
block (paragraph line, bullet line, image).  The claim as stated — the
bottom of every drawn block is at or above the bottom content
boundary — fails for a bullet taller than one page; the amended theorem
bounds every logged bottom under the fitting hypotheses. -/

lemma drawParaLines_log (opts : ParaOpts) (cb : GenSt → GenSt)
    (hcbLog : ∀ s b, b ∈ (cb s).blockLog → b ∈ s.blockLog ∨ b ≤ ((bottomY : ℕ) : ℚ))
    (hcb : ∀ s, (cb s).cur.cursorY + opts.lineHeight ≤ bottomY) :
    ∀ (lines : List String) (st : GenSt) (b : ℚ),
      b ∈ (drawParaLines opts cb st lines).blockLog →
      b ∈ st.blockLog ∨ b ≤ ((bottomY : ℕ) : ℚ) := by
  intro lines
  induction lines with
  | nil => intro st b hb; exact Or.inl hb
  | cons line rest ih =>
    intro st b hb
    rw [drawParaLines] at hb
    rcases ih _ b hb with hmem | hle
    · simp only [advance_blockLog, logBlock_blockLog, paintText_blockLog] at hmem
      rcases List.mem_append.mp hmem with h1 | h1
      · by_cases hchk : st.cur.cursorY + opts.lineHeight > bottomY
        · rw [if_pos hchk] at h1
          exact hcbLog st b h1
        · rw [if_neg hchk] at h1
          exact Or.inl h1
      · simp only [List.mem_singleton] at h1
        subst h1
        right
        by_cases hchk : st.cur.cursorY + opts.lineHeight > bottomY
        · rw [if_pos hchk]
          exact_mod_cast hcb st
        · rw [if_neg hchk]
          push_neg at hchk
          exact_mod_cast hchk
    · exact Or.inr hle

lemma drawParagraph_log (m : Measure) (opts : ParaOpts) (cb : GenSt → GenSt)
    (hcbLog : ∀ s b, b ∈ (cb s).blockLog → b ∈ s.blockLog ∨ b ≤ ((bottomY : ℕ) : ℚ))
    (hcb : ∀ s, (cb s).cur.cursorY + opts.lineHeight ≤ bottomY)
    (st : GenSt) (text : String) :
    ∀ b ∈ (drawParagraph m opts cb st text).blockLog,
      b ∈ st.blockLog ∨ b ≤ ((bottomY : ℕ) : ℚ) := by
  intro b hb
  unfold drawParagraph at hb
  rw [advance_blockLog] at hb
  exact drawParaLines_log opts cb hcbLog hcb _ st b hb

/-- Log safety for a paragraph drawn with no overflow callback but
enough remaining space for all its lines. -/
lemma drawParaLines_log_fit (opts : ParaOpts) :
    ∀ (lines : List String) (st : GenSt),
      st.cur.cursorY + opts.lineHeight * lines.length ≤ bottomY →
      ∀ b, b ∈ (drawParaLines opts id st lines).blockLog →
        b ∈ st.blockLog ∨ b ≤ ((bottomY : ℕ) : ℚ) := by
  intro lines
  induction lines with
  | nil => intro st _ b hb; exact Or.inl hb
  | cons line rest ih =>
    intro st hfit b hb
    rw [drawParaLines] at hb
    have hsame : (if st.cur.cursorY + opts.lineHeight > bottomY then id st else st) = st := by
      by_cases h : st.cur.cursorY + opts.lineHeight > bottomY
      · rw [if_pos h]; rfl
      · rw [if_neg h]
    rw [hsame] at hb
    simp only [List.length_cons, Nat.mul_succ] at hfit
    have hfit2 : (advance (logBlock
          (paintText st opts.font opts.color line MARGIN_X st.cur.cursorY)
          ((st.cur.cursorY + opts.lineHeight : ℕ) : ℚ)) opts.lineHeight).cur.cursorY
        + opts.lineHeight * rest.length ≤ bottomY := by
      simp only [advance_cursorY, logBlock_cursorY, paintText_cursorY]
      omega
    rcases ih _ hfit2 b hb with hmem | hle
    · simp only [advance_blockLog, logBlock_blockLog, paintText_blockLog] at hmem
      rcases List.mem_append.mp hmem with h1 | h1
      · exact Or.inl h1
      · simp only [List.mem_singleton] at h1
        subst h1
        right
        have hfin : st.cur.cursorY + opts.lineHeight ≤ bottomY := by omega
        exact_mod_cast hfin
    · exact Or.inr hle

lemma drawParagraph_log_fit (m : Measure) (opts : ParaOpts) (st : GenSt) (text : String)
    (hfit : st.cur.cursorY + opts.lineHeight
      * (wrapLine (m opts.font) text ((PAGE_WIDTH - MARGIN_X * 2 : ℕ) : ℚ)).length ≤ bottomY) :
    ∀ b ∈ (drawParagraph m opts id st text).blockLog,
      b ∈ st.blockLog ∨ b ≤ ((bottomY : ℕ) : ℚ) := by
  intro b hb
  unfold drawParagraph at hb
  rw [advance_blockLog] at hb
  exact drawParaLines_log_fit opts _ st hfit b hb

lemma paintLinesAt_log (f c : String) (x : ℚ) (lh : ℕ) :
    ∀ (lines : List String) (st : GenSt) (y : ℕ) (b : ℚ),
      b ∈ (paintLinesAt f c x lh st y lines).blockLog →
      b ∈ st.blockLog ∨ ∃ k, k < lines.length ∧ b = ((y + (k + 1) * lh : ℕ) : ℚ) := by
  intro lines
  induction lines with
  | nil => intro st y b hb; exact Or.inl hb
  | cons line rest ih =>
    intro st y b hb
    rw [paintLinesAt] at hb
    rcases ih _ _ b hb with hmem | ⟨k, hk, hkeq⟩
    · simp only [logBlock_blockLog, paintText_blockLog] at hmem
      rcases List.mem_append.mp hmem with h1 | h1
      · exact Or.inl h1
      · simp only [List.mem_singleton] at h1
        exact Or.inr ⟨0, by simp, by simpa using h1⟩
    · refine Or.inr ⟨k + 1, by simpa using Nat.succ_lt_succ hk, ?_⟩
      rw [hkeq]
      congr 1
      ring

lemma drawBullet_log (m : Measure) (opts : BulletOpts) (cb : GenSt → GenSt)
    (hcbLog : ∀ s b, b ∈ (cb s).blockLog → b ∈ s.blockLog ∨ b ≤ ((bottomY : ℕ) : ℚ))
    (st : GenSt) (bullet : String)
    (hcb : ∀ s, (cb s).cur.cursorY
      + max opts.lineHeight
        ((wrapLine (m (buildFont 16)) bullet ((PAGE_WIDTH - MARGIN_X * 2 - 24 : ℕ) : ℚ)).length
          * opts.lineHeight) ≤ bottomY) :
    ∀ b ∈ (drawBullet m opts cb st bullet).blockLog,
      b ∈ st.blockLog ∨ b ≤ ((bottomY : ℕ) : ℚ) := by
  intro b hb
  set L := wrapLine (m (buildFont 16)) bullet ((PAGE_WIDTH - MARGIN_X * 2 - 24 : ℕ) : ℚ) with hL
  set s1 := if st.cur.cursorY + max opts.lineHeight (L.length * opts.lineHeight) > bottomY
    then cb st else st with hs1
  have hb2 : b ∈ (paintLinesAt (buildFont 16) BODY_COLOR ((MARGIN_X + 24 : ℕ) : ℚ)
      opts.lineHeight (paintText s1 (buildFont 16) BODY_COLOR "•" MARGIN_X s1.cur.cursorY)
      s1.cur.cursorY L).blockLog := by
    have hred : drawBullet m opts cb st bullet
        = advance (setCursor
            (paintLinesAt (buildFont 16) BODY_COLOR ((MARGIN_X + 24 : ℕ) : ℚ)
              opts.lineHeight
              (paintText s1 (buildFont 16) BODY_COLOR "•" MARGIN_X s1.cur.cursorY)
              s1.cur.cursorY L)
            (max (s1.cur.cursorY + max opts.lineHeight (L.length * opts.lineHeight))
              (s1.cur.cursorY + L.length * opts.lineHeight)))
          opts.bulletSpacing := by
      rw [drawBullet, ← hL, ← hs1]
    rw [hred] at hb
    simpa using hb
  have hs1cur : s1.cur.cursorY + max opts.lineHeight (L.length * opts.lineHeight) ≤ bottomY := by
    rw [hs1]
    by_cases hchk : st.cur.cursorY + max opts.lineHeight (L.length * opts.lineHeight) > bottomY
    · rw [if_pos hchk]
      exact hcb st
    · rw [if_neg hchk]
      omega
  rcases paintLinesAt_log (buildFont 16) BODY_COLOR ((MARGIN_X + 24 : ℕ) : ℚ)
    opts.lineHeight L _ s1.cur.cursorY b hb2 with hmem | ⟨k, hk, hkeq⟩
  · simp only [paintText_blockLog] at hmem
    rw [hs1] at hmem
    by_cases hchk : st.cur.cursorY + max opts.lineHeight (L.length * opts.lineHeight) > bottomY
    · rw [if_pos hchk] at hmem
      exact hcbLog st b hmem
    · rw [if_neg hchk] at hmem
      exact Or.inl hmem
  · right
    rw [hkeq]
    have harith : s1.cur.cursorY + (k + 1) * opts.lineHeight ≤ bottomY := by
      have h1 : (k + 1) * opts.lineHeight ≤ L.length * opts.lineHeight :=
        Nat.mul_le_mul_right _ hk
      have h2 : L.length * opts.lineHeight
          ≤ max opts.lineHeight (L.length * opts.lineHeight) := le_max_right _ _
      omega
    exact_mod_cast harith

lemma drawBulletList_log (m : Measure) (opts : BulletOpts) (cb : GenSt → GenSt)
    (hcbLog : ∀ s b, b ∈ (cb s).blockLog → b ∈ s.blockLog ∨ b ≤ ((bottomY : ℕ) : ℚ)) :
    ∀ (bullets : List String) (st : GenSt),
      (∀ s bl, bl ∈ bullets → (cb s).cur.cursorY
        + max opts.lineHeight
          ((wrapLine (m (buildFont 16)) bl ((PAGE_WIDTH - MARGIN_X * 2 - 24 : ℕ) : ℚ)).length
            * opts.lineHeight) ≤ bottomY) →
      ∀ b ∈ (drawBulletList m opts cb st bullets).blockLog,
        b ∈ st.blockLog ∨ b ≤ ((bottomY : ℕ) : ℚ) := by
  intro bullets
  induction bullets with
  | nil => intro st _ b hb; exact Or.inl hb
  | cons hd rest ih =>
    intro st hcb b hb
    have hb2 : b ∈ (rest.foldl (drawBullet m opts cb) (drawBullet m opts cb st hd)).blockLog := hb
    rcases ih _ (fun s bl hbl => hcb s bl (List.mem_cons_of_mem hd hbl)) b hb2 with hmem | hle
    · exact drawBullet_log m opts cb hcbLog st hd
        (fun s => hcb s hd (List.mem_cons_self hd rest)) b hmem
    · exact Or.inr hle

/-- Line-count bound for single-segment text: at most one line per
character. -/
lemma wrapLine_length_le (m : String → ℚ) (w : ℚ) (text : String)
    (h1 : text.data ≠ []) (hnl : '\n' ∉ text.data) (hcr : '\r' ∉ text.data) :
    (wrapLine m text w).length ≤ text.data.length := by
  unfold wrapLine
  rw [List.length_map, wrapChars_eq, normalizeNewlines_id text.data hcr,
    splitNL_single text.data h1 hnl]
  have hlen := (wrapSeg_length_bounds (fun l => m (String.mk l)) w text.data).2
  have hpos : 1 ≤ text.data.length := List.length_pos.mpr h1
  simp only [List.map_cons, List.map_nil, List.flatten_cons, List.flatten_nil,
    List.append_nil]
  exact le_trans hlen (max_le hpos le_rfl)

lemma drawImageContent_log (m : Measure) (load : String → Except String Image) (st : GenSt)
    (url : Option String) (hcur : st.cur.cursorY = 120)
    (himg : ∀ u img, load u = Except.ok img → 0 < img.width ∧ 0 < img.height)
    (hmsg : ∀ u e, load u = Except.error e →
      (wrapLine (m (buildFont 16)) ("圖像載入失敗：" ++ e)
        ((PAGE_WIDTH - MARGIN_X * 2 : ℕ) : ℚ)).length ≤ 56) :
    ∀ b ∈ (drawImageContent m load st url).blockLog,
      b ∈ st.blockLog ∨ b ≤ ((bottomY : ℕ) : ℚ) := by
  have hplaceholder : ∀ b ∈ (drawParagraph m { color := MUTED_COLOR } id st
      "尚未取得圖像資料。").blockLog, b ∈ st.blockLog ∨ b ≤ ((bottomY : ℕ) : ℚ) := by
    apply drawParagraph_log_fit
    have hle : (wrapLine (m (buildFont 16)) "尚未取得圖像資料。"
        ((PAGE_WIDTH - MARGIN_X * 2 : ℕ) : ℚ)).length ≤ 9 := by
      have h := wrapLine_length_le (m (buildFont 16)) ((PAGE_WIDTH - MARGIN_X * 2 : ℕ) : ℚ)
        "尚未取得圖像資料。" (by decide) (by decide) (by decide)
      simpa using h
    show st.cur.cursorY + 26 * (wrapLine (m (buildFont 16)) "尚未取得圖像資料。"
      ((PAGE_WIDTH - MARGIN_X * 2 : ℕ) : ℚ)).length ≤ bottomY
    rw [hcur]
    have hB : bottomY = 1584 := rfl
    omega
  intro b hb
  match url with
  | none => exact hplaceholder b hb
  | some u =>
    rw [drawImageContent] at hb
    by_cases hu : u = ""
    · rw [if_pos hu] at hb
      exact hplaceholder b hb
    · rw [if_neg hu] at hb
      rcases hload : load u with e | img
      · rw [hload] at hb
        revert hb
        apply drawParagraph_log_fit
        show st.cur.cursorY + 26 * (wrapLine (m (buildFont 16)) ("圖像載入失敗：" ++ e)
          ((PAGE_WIDTH - MARGIN_X * 2 : ℕ) : ℚ)).length ≤ bottomY
        rw [hcur]
        have hB : bottomY = 1584 := rfl
        have := hmsg u e hload
        omega
      · rw [hload] at hb
        simp only [logBlock_blockLog, paintImg_blockLog] at hb
        rcases List.mem_append.mp hb with h1 | h1
        · exact Or.inl h1
        · simp only [List.mem_singleton] at h1
          subst h1
          right
          rcases himg u img hload with ⟨hw, hh⟩
          have hfit := (imageScale_aspect img hw hh).2.2.2.1
          have hah : availableHeight = ((1424 : ℕ) : ℚ) := rfl
          rw [hcur]
          rw [hah] at hfit
          have hBq : ((bottomY : ℕ) : ℚ) = ((1584 : ℕ) : ℚ) := rfl
          rw [hBq]
          push_cast at hfit ⊢
          linarith

lemma drawImagePage_log (m : Measure) (load : String → Except String Image) (st : GenSt)
    (t : String) (url : Option String)
    (himg : ∀ u img, load u = Except.ok img → 0 < img.width ∧ 0 < img.height)
    (hmsg : ∀ u e, load u = Except.error e →
      (wrapLine (m (buildFont 16)) ("圖像載入失敗：" ++ e)
        ((PAGE_WIDTH - MARGIN_X * 2 : ℕ) : ℚ)).length ≤ 56) :
    ∀ b ∈ (drawImagePage m load st t url).blockLog,
      b ∈ st.blockLog ∨ b ≤ ((bottomY : ℕ) : ℚ) := by
  intro b hb
  set stA := if st.cur.cursorY ≠ MARGIN_TOP then commitPage m st else st with hA
  have hAlog : stA.blockLog = st.blockLog := by
    rw [hA]
    by_cases h : st.cur.cursorY ≠ MARGIN_TOP
    · rw [if_pos h]; rfl
    · rw [if_neg h]
  have hAcur : stA.cur.cursorY = MARGIN_TOP := by
    rw [hA]
    by_cases h : st.cur.cursorY ≠ MARGIN_TOP
    · rw [if_pos h]; rfl
    · rw [if_neg h]; push_neg at h; exact h
  have hred : drawImagePage m load st t url
      = commitPage m (drawImageContent m load
          (advance (paintText stA (buildFont 26 600) HEADING_COLOR t MARGIN_X
            stA.cur.cursorY) 40) url) := by
    rw [drawImagePage, ← hA]
  rw [hred, commitPage_blockLog] at hb
  have hcur : (advance (paintText stA (buildFont 26 600) HEADING_COLOR t MARGIN_X
      stA.cur.cursorY) 40).cur.cursorY = 120 := by
    simp [hAcur, MARGIN_TOP]
  rcases drawImageContent_log m load _ url hcur himg hmsg b hb with hmem | hle
  · simp only [advance_blockLog, paintText_blockLog] at hmem
    rw [hAlog] at hmem
    exact Or.inl hmem
  · exact Or.inr hle

set_option maxRecDepth 100000 in
/-- **C1 counterexample.**  A payload whose single global-summary
bullet wraps to 60 lines (1560 px, taller than one page's content
area) makes the generator draw bullet lines past the bottom content
boundary with no intervening page finalize: the ghost block log holds
a bottom edge of 1596 > 1584, and the corresponding line paint sits at
y = 1570 on the second committed page. -/
theorem no_overflow_claim_counterexample :
    (1596 : ℚ) ∈ resultLog (generateAnalysisPdf envLoadFail mWide giantBulletPayload)
    ∧ ¬ ((1596 : ℚ) ≤ ((bottomY : ℕ) : ℚ))
    ∧ Paint.text (buildFont 16) BODY_COLOR "x" ((MARGIN_X + 24 : ℕ) : ℚ) 1570
        ∈ (resultPages (generateAnalysisPdf envLoadFail mWide giantBulletPayload)).getD 1 [] := by
  exact ⟨by decide, by decide, by decide⟩

/-- **C1 (amended).**  Every drawn content block's bottom edge stays at
or above the bottom content boundary, provided the block fits the space
its overflow callback re-establishes: (i) paragraph lines, when the
callback leaves room for one line; (ii) bullet lines, when the callback
leaves room for each bullet's whole wrapped height (a bullet taller
than the page overflows without a finalize — the accepted edge case
refuting the original claim); (iii) image blocks and their
placeholder/error paragraphs, when loaded images have positive
dimensions and error messages wrap within a page. -/
theorem no_overflow_amended :
    (∀ (m : Measure) (opts : ParaOpts) (cb : GenSt → GenSt) (st : GenSt) (text : String),
      (∀ s b, b ∈ (cb s).blockLog → b ∈ s.blockLog ∨ b ≤ ((bottomY : ℕ) : ℚ)) →
      (∀ s, (cb s).cur.cursorY + opts.lineHeight ≤ bottomY) →
      ∀ b ∈ (drawParagraph m opts cb st text).blockLog,
        b ∈ st.blockLog ∨ b ≤ ((bottomY : ℕ) : ℚ))
    ∧ (∀ (m : Measure) (opts : BulletOpts) (cb : GenSt → GenSt) (st : GenSt)
        (bullets : List String),
      (∀ s b, b ∈ (cb s).blockLog → b ∈ s.blockLog ∨ b ≤ ((bottomY : ℕ) : ℚ)) →
      (∀ s bl, bl ∈ bullets → (cb s).cur.cursorY
        + max opts.lineHeight
          ((wrapLine (m (buildFont 16)) bl ((PAGE_WIDTH - MARGIN_X * 2 - 24 : ℕ) : ℚ)).length
            * opts.lineHeight) ≤ bottomY) →
      ∀ b ∈ (drawBulletList m opts cb st bullets).blockLog,
        b ∈ st.blockLog ∨ b ≤ ((bottomY : ℕ) : ℚ))
    ∧ (∀ (m : Measure) (load : String → Except String Image) (st : GenSt)
        (t : String) (url : Option String),
      (∀ u img, load u = Except.ok img → 0 < img.width ∧ 0 < img.height) →
      (∀ u e, load u = Except.error e →
        (wrapLine (m (buildFont 16)) ("圖像載入失敗：" ++ e)
          ((PAGE_WIDTH - MARGIN_X * 2 : ℕ) : ℚ)).length ≤ 56) →
      ∀ b ∈ (drawImagePage m load st t url).blockLog,
        b ∈ st.blockLog ∨ b ≤ ((bottomY : ℕ) : ℚ)) := by
  refine ⟨?_, ?_, ?_⟩
  · intro m opts cb st text hcbLog hcb
    exact drawParagraph_log m opts cb hcbLog hcb st text
  · intro m opts cb st bullets hcbLog hcb
    exact drawBulletList_log m opts cb hcbLog bullets st hcb
  · intro m load st t url himg hmsg
    exact drawImagePage_log m load st t url himg hmsg

lemma globalCb_cursorY (m : Measure) (s : GenSt) :
    (drawSectionHeading m (commitPage m s) "全局摘要").cur.cursorY = 114 := by
  unfold drawSectionHeading
  have hens : ensureSpace m (commitPage m s) 80 = commitPage m s := by
    unfold ensureSpace
    rw [commitPage_cursorY]
    rw [if_neg (by decide)]
  rw [hens]
  simp [MARGIN_TOP]

/-- Witness for C1 (amended) at concrete renderer calls: a paragraph
and a bullet list with the 全局摘要 overflow callback, and an image
page whose load fails with a short message. -/
theorem no_overflow_amended_witness :
    (∀ s b, b ∈ (drawSectionHeading mNarrow (commitPage mNarrow s) "全局摘要").blockLog →
        b ∈ s.blockLog ∨ b ≤ ((bottomY : ℕ) : ℚ))
    ∧ (∀ s : GenSt, (drawSectionHeading mNarrow (commitPage mNarrow s) "全局摘要").cur.cursorY
        + ({} : ParaOpts).lineHeight ≤ bottomY)
    ∧ (∀ b ∈ (drawParagraph mNarrow {}
          (fun t => drawSectionHeading mNarrow (commitPage mNarrow t) "全局摘要")
          initSt "hi").blockLog,
        b ∈ initSt.blockLog ∨ b ≤ ((bottomY : ℕ) : ℚ))
    ∧ (∀ b ∈ (drawBulletList mNarrow {}
          (fun t => drawSectionHeading mNarrow (commitPage mNarrow t) "全局摘要")
          initSt ["ab"]).blockLog,
        b ∈ initSt.blockLog ∨ b ≤ ((bottomY : ℕ) : ℚ))
    ∧ (∀ b ∈ (drawImagePage mNarrow loadErrX initSt "文字雲" (some "u")).blockLog,
        b ∈ initSt.blockLog ∨ b ≤ ((bottomY : ℕ) : ℚ)) := by
  have hcbLog : ∀ s b, b ∈ (drawSectionHeading mNarrow (commitPage mNarrow s) "全局摘要").blockLog →
      b ∈ s.blockLog ∨ b ≤ ((bottomY : ℕ) : ℚ) := by
    intro s b h
    rw [drawSectionHeading_blockLog, commitPage_blockLog] at h
    exact Or.inl h
  have hcb : ∀ s : GenSt, (drawSectionHeading mNarrow (commitPage mNarrow s) "全局摘要").cur.cursorY
      + ({} : ParaOpts).lineHeight ≤ bottomY := by
    intro s
    rw [globalCb_cursorY]
    decide
  have hcbBul : ∀ (s : GenSt) (bl : String), bl ∈ ["ab"] →
      (drawSectionHeading mNarrow (commitPage mNarrow s) "全局摘要").cur.cursorY
      + max ({} : BulletOpts).lineHeight
        ((wrapLine (mNarrow (buildFont 16)) bl ((PAGE_WIDTH - MARGIN_X * 2 - 24 : ℕ) : ℚ)).length
          * ({} : BulletOpts).lineHeight) ≤ bottomY := by
    intro s bl hbl
    rw [globalCb_cursorY]
    rcases List.mem_singleton.mp hbl with rfl
    decide
  have himg : ∀ u img, loadErrX u = Except.ok img → 0 < img.width ∧ 0 < img.height := by
    intro u img h
    simp [loadErrX] at h
  have hmsg : ∀ u e, loadErrX u = Except.error e →
      (wrapLine (mNarrow (buildFont 16)) ("圖像載入失敗：" ++ e)
        ((PAGE_WIDTH - MARGIN_X * 2 : ℕ) : ℚ)).length ≤ 56 := by
    intro u e h
    simp only [loadErrX, Except.error.injEq] at h
    subst h
    decide
  refine ⟨hcbLog, hcb, ?_, ?_, ?_⟩
  · exact no_overflow_amended.1 mNarrow {}
      (fun t => drawSectionHeading mNarrow (commitPage mNarrow t) "全局摘要")
      initSt "hi" hcbLog hcb
  · exact no_overflow_amended.2.1 mNarrow {}
      (fun t => drawSectionHeading mNarrow (commitPage mNarrow t) "全局摘要")
      initSt ["ab"] hcbLog hcbBul
  · exact no_overflow_amended.2.2 mNarrow loadErrX initSt "文字雲" (some "u") himg hmsg

/-! ## Claim C6: image load failure is caught and rendered inline -/

lemma drawImagePage_mem_error (m : Measure) (load : String → Except String Image)
    (st : GenSt) (t : String) (url e : String)
    (hne : url ≠ "") (hload : load url = Except.error e) :
    ∀ line ∈ wrapLine (m (buildFont 16)) ("圖像載入失敗：" ++ e)
        ((PAGE_WIDTH - MARGIN_X * 2 : ℕ) : ℚ),
      ∃ y, Paint.text (buildFont 16) MUTED_COLOR line ((MARGIN_X : ℕ) : ℚ) y
        ∈ allPaints (drawImagePage m load st t (some url)) := by
  intro line hline
  have hred : drawImagePage m load st t (some url)
      = commitPage m (drawImageContent m load
          (advance (paintText (if st.cur.cursorY ≠ MARGIN_TOP then commitPage m st else st)
            (buildFont 26 600) HEADING_COLOR t MARGIN_X
            (if st.cur.cursorY ≠ MARGIN_TOP then commitPage m st else st).cur.cursorY) 40)
          (some url)) := rfl
  have hcontent : ∀ u : GenSt, drawImageContent m load u (some url)
      = drawParagraph m { color := MUTED_COLOR } id u ("圖像載入失敗：" ++ e) := by
    intro u
    rw [drawImageContent, if_neg hne, hload]
  rcases drawParagraph_mem m { color := MUTED_COLOR } id (fun s => paintExtends_refl s)
    (advance (paintText (if st.cur.cursorY ≠ MARGIN_TOP then commitPage m st else st)
      (buildFont 26 600) HEADING_COLOR t MARGIN_X
      (if st.cur.cursorY ≠ MARGIN_TOP then commitPage m st else st).cur.cursorY) 40)
    ("圖像載入失敗：" ++ e) line hline with ⟨y, hy⟩
  refine ⟨y, ?_⟩
  rw [hred, hcontent]
  exact mem_allPaints_of_extends (paintExtends_commitPage _ _) hy

/-- **C6.**  When loading the word-cloud or the mind-map image fails,
the failure is caught: generation still resolves with a document
(never a rejection), and every wrapped line of the inline muted error
paragraph 圖像載入失敗：… is painted in place of the failed image,
whichever of the two trailing sections it belongs to. -/
theorem imageFailure_recovered (env : Env) (m : Measure) (p : PdfAnalysisPayload)
    (url e : String)
    (hc : env.canvasOk = true) (hpng : env.pngOk = true)
    (hne : url ≠ "") (hload : env.loadImage url = Except.error e) :
    ∃ r, generateAnalysisPdf env m p = Except.ok r
    ∧ (p.wordcloudUrl = some url →
        ∀ line ∈ wrapLine (m (buildFont 16)) ("圖像載入失敗：" ++ e)
            ((PAGE_WIDTH - MARGIN_X * 2 : ℕ) : ℚ),
          ∃ y, Paint.text (buildFont 16) MUTED_COLOR line ((MARGIN_X : ℕ) : ℚ) y
            ∈ r.pages.flatten ++ r.finalCanvas)
    ∧ (p.mindmapImageUrl = some url →
        ∀ line ∈ wrapLine (m (buildFont 16)) ("圖像載入失敗：" ++ e)
            ((PAGE_WIDTH - MARGIN_X * 2 : ℕ) : ℚ),
          ∃ y, Paint.text (buildFont 16) MUTED_COLOR line ((MARGIN_X : ℕ) : ℚ) y
            ∈ r.pages.flatten ++ r.finalCanvas) := by
  refine ⟨_, generateAnalysisPdf_ok env m p hc hpng, ?_, ?_⟩
  · intro hurl line hline
    rcases drawImagePage_mem_error m env.loadImage
      (commitPage m (p.pageSummaries.foldl (summaryStep m) (preSummariesState m p)))
      "文字雲" url e hne hload line hline with ⟨y, hy⟩
    refine ⟨y, ?_⟩
    show Paint.text (buildFont 16) MUTED_COLOR line ((MARGIN_X : ℕ) : ℚ) y
      ∈ allPaints (layoutRun m env.loadImage p)
    have hlay : layoutRun m env.loadImage p
        = drawImagePage m env.loadImage
            (drawImagePage m env.loadImage
              (commitPage m (p.pageSummaries.foldl (summaryStep m) (preSummariesState m p)))
              "文字雲" p.wordcloudUrl)
            "心智圖" p.mindmapImageUrl := rfl
    rw [hlay, hurl]
    exact mem_allPaints_of_extends
      (paintExtends_drawImagePage m env.loadImage _ "心智圖" p.mindmapImageUrl) hy
  · intro hurl line hline
    rcases drawImagePage_mem_error m env.loadImage
      (drawImagePage m env.loadImage
        (commitPage m (p.pageSummaries.foldl (summaryStep m) (preSummariesState m p)))
        "文字雲" p.wordcloudUrl)
      "心智圖" url e hne hload line hline with ⟨y, hy⟩
    refine ⟨y, ?_⟩
    show Paint.text (buildFont 16) MUTED_COLOR line ((MARGIN_X : ℕ) : ℚ) y
      ∈ allPaints (layoutRun m env.loadImage p)
    have hlay : layoutRun m env.loadImage p
        = drawImagePage m env.loadImage
            (drawImagePage m env.loadImage
              (commitPage m (p.pageSummaries.foldl (summaryStep m) (preSummariesState m p)))
              "文字雲" p.wordcloudUrl)
            "心智圖" p.mindmapImageUrl := rfl
    rw [hlay, hurl]
    exact hy

/-- Witness for C6 at the always-failing loader and the empty payload
with both image references, exercising both the word-cloud and the
mind-map failure cases. -/
theorem imageFailure_recovered_witness :
    ∃ r, generateAnalysisPdf envLoadFail mNarrow imgPayload = Except.ok r
    ∧ (∀ line ∈ wrapLine (mNarrow (buildFont 16)) ("圖像載入失敗：" ++ "無法載入圖像：u")
          ((PAGE_WIDTH - MARGIN_X * 2 : ℕ) : ℚ),
        ∃ y, Paint.text (buildFont 16) MUTED_COLOR line ((MARGIN_X : ℕ) : ℚ) y
          ∈ r.pages.flatten ++ r.finalCanvas)
    ∧ (∀ line ∈ wrapLine (mNarrow (buildFont 16)) ("圖像載入失敗：" ++ "無法載入圖像：v")
          ((PAGE_WIDTH - MARGIN_X * 2 : ℕ) : ℚ),
        ∃ y, Paint.text (buildFont 16) MUTED_COLOR line ((MARGIN_X : ℕ) : ℚ) y
          ∈ r.pages.flatten ++ r.finalCanvas) := by
  rcases imageFailure_recovered envLoadFail mNarrow imgPayload "u" "無法載入圖像：u"
    rfl rfl (by decide) rfl with ⟨r, hr, h1, _⟩
  rcases imageFailure_recovered envLoadFail mNarrow imgPayload "v" "無法載入圖像：v"
    rfl rfl (by decide) rfl with ⟨r2, hr2, _, h2⟩
  have hrr : r2 = r := by
    rw [hr] at hr2
    injection hr2 with h
    exact h.symm
  refine ⟨r, hr, h1 rfl, ?_⟩
  rw [← hrr]
  exact h2 rfl

/-! ## Claim C10: footer stamping and assembly order -/

lemma footersFrom_append (m : Measure) :
    ∀ (l₁ l₂ : List (List Paint)) (k : ℕ),
      FootersFrom m k l₁ → FootersFrom m (k + l₁.length) l₂ → FootersFrom m k (l₁ ++ l₂) := by
  intro l₁
  induction l₁ with
  | nil => intro l₂ k _ h2; simpa using h2
  | cons pg rest ih =>
    intro l₂ k h1 h2
    rcases h1 with ⟨hpg, hrest⟩
    refine ⟨hpg, ih l₂ (k + 1) hrest ?_⟩
    have : k + 1 + rest.length = k + (rest.length + 1) := by ring
    rw [this]
    simpa using h2

lemma PageInv.of_eq {m : Measure} {st st' : GenSt} (h : PageInv m st)
    (hp : st'.pages = st.pages) (hn : st'.cur.pageNumber = st.cur.pageNumber) :
    PageInv m st' := by
  rcases h with ⟨h1, h2⟩
  exact ⟨by rw [hn, hp, h1], by rw [hp]; exact h2⟩

lemma pageInv_advance {m : Measure} {st : GenSt} {g : ℕ} (h : PageInv m st) :
    PageInv m (advance st g) :=
  PageInv.of_eq h (by simp) (by simp)

lemma pageInv_commitPage (m : Measure) (st : GenSt) (h : PageInv m st) :
    PageInv m (commitPage m st) := by
  rcases h with ⟨h1, h2⟩
  constructor
  · simp [h1]
  · rw [commitPage_pages]
    apply footersFrom_append m st.pages _ 1 h2
    refine ⟨?_, trivial⟩
    rw [List.getLast?_concat, h1]
    rw [Nat.add_comm 1 st.pages.length]

lemma pageInv_ensureSpace (m : Measure) (st : GenSt) (n : ℕ) (h : PageInv m st) :
    PageInv m (ensureSpace m st n) := by
  unfold ensureSpace
  by_cases hc : st.cur.cursorY + n > bottomY
  · rw [if_pos hc]; exact pageInv_commitPage m st h
  · rw [if_neg hc]; exact h

lemma pageInv_drawParaLines (opts : ParaOpts) (cb : GenSt → GenSt)
    (hcb : ∀ s, PageInv m s → PageInv m (cb s)) :
    ∀ (lines : List String) (st : GenSt), PageInv m st →
      PageInv m (drawParaLines opts cb st lines) := by
  intro lines
  induction lines with
  | nil => intro st h; exact h
  | cons line rest ih =>
    intro st h
    rw [drawParaLines]
    apply ih
    have hmid : PageInv m (if st.cur.cursorY + opts.lineHeight > bottomY then cb st else st) := by
      by_cases hc : st.cur.cursorY + opts.lineHeight > bottomY
      · rw [if_pos hc]; exact hcb st h
      · rw [if_neg hc]; exact h
    exact PageInv.of_eq hmid (by simp) (by simp)

lemma pageInv_drawParagraph (m : Measure) (opts : ParaOpts) (cb : GenSt → GenSt)
    (hcb : ∀ s, PageInv m s → PageInv m (cb s)) (st : GenSt) (text : String)
    (h : PageInv m st) : PageInv m (drawParagraph m opts cb st text) := by
  have h1 := pageInv_drawParaLines opts cb hcb
    (wrapLine (m opts.font) text ((PAGE_WIDTH - MARGIN_X * 2 : ℕ) : ℚ)) st h
  exact PageInv.of_eq h1 (by simp [drawParagraph]) (by simp [drawParagraph])

lemma paintLinesAt_pageNumber (f c : String) (x : ℚ) (lh : ℕ) :
    ∀ (lines : List String) (st : GenSt) (y : ℕ),
      (paintLinesAt f c x lh st y lines).cur.pageNumber = st.cur.pageNumber := by
  intro lines
  induction lines with
  | nil => intro st y; rfl
  | cons line rest ih =>
    intro st y
    rw [paintLinesAt, ih]
    rfl

lemma pageInv_drawBullet (m : Measure) (opts : BulletOpts) (cb : GenSt → GenSt)
    (hcb : ∀ s, PageInv m s → PageInv m (cb s)) (st : GenSt) (b : String)
    (h : PageInv m st) : PageInv m (drawBullet m opts cb st b) := by
  set L := wrapLine (m (buildFont 16)) b ((PAGE_WIDTH - MARGIN_X * 2 - 24 : ℕ) : ℚ) with hL
  set s1 := if st.cur.cursorY + max opts.lineHeight (L.length * opts.lineHeight) > bottomY
    then cb st else st with hs1
  have h1 : PageInv m s1 := by
    rw [hs1]
    by_cases hc : st.cur.cursorY + max opts.lineHeight (L.length * opts.lineHeight) > bottomY
    · rw [if_pos hc]; exact hcb st h
    · rw [if_neg hc]; exact h
  have hred : drawBullet m opts cb st b
      = advance (setCursor
          (paintLinesAt (buildFont 16) BODY_COLOR ((MARGIN_X + 24 : ℕ) : ℚ) opts.lineHeight
            (paintText s1 (buildFont 16) BODY_COLOR "•" MARGIN_X s1.cur.cursorY)
            s1.cur.cursorY L)
          (max (s1.cur.cursorY + max opts.lineHeight (L.length * opts.lineHeight))
            (s1.cur.cursorY + L.length * opts.lineHeight)))
        opts.bulletSpacing := by
    rw [drawBullet, ← hL, ← hs1]
  rw [hred]
  apply PageInv.of_eq h1
  · simp [paintLinesAt_pages]
  · simp [paintLinesAt_pageNumber]

lemma pageInv_drawBulletList (m : Measure) (opts : BulletOpts) (cb : GenSt → GenSt)
    (hcb : ∀ s, PageInv m s → PageInv m (cb s)) :
    ∀ (bullets : List String) (st : GenSt), PageInv m st →
      PageInv m (drawBulletList m opts cb st bullets) := by
  intro bullets
  induction bullets with
  | nil => intro st h; exact h
  | cons b rest ih =>
    intro st h
    exact ih _ (pageInv_drawBullet m opts cb hcb st b h)

lemma pageInv_drawSectionHeading (m : Measure) (st : GenSt) (t : String)
    (h : PageInv m st) : PageInv m (drawSectionHeading m st t) := by
  unfold drawSectionHeading
  exact PageInv.of_eq (pageInv_ensureSpace m st 80 h) (by simp) (by simp)

lemma pageInv_drawSubHeading (m : Measure) (st : GenSt) (t : String)
    (h : PageInv m st) : PageInv m (drawSubHeading m st t) := by
  unfold drawSubHeading
  exact PageInv.of_eq (pageInv_ensureSpace m st 50 h) (by simp) (by simp)

lemma pageInv_drawPageSummaryHeading (st : GenSt) (h : PageInv m st) :
    PageInv m (drawPageSummaryHeading st) :=
  PageInv.of_eq h (by simp [drawPageSummaryHeading]) (by simp [drawPageSummaryHeading])

lemma pageInv_summaryHeadFull (m : Measure) (s : PdfPageSummary) (st : GenSt)
    (h : PageInv m st) : PageInv m (summaryHeadFull m s st) :=
  PageInv.of_eq h (by simp [summaryHeadFull]) (by simp [summaryHeadFull])

lemma pageInv_summaryHeadBare (s : PdfPageSummary) (st : GenSt) (h : PageInv m st) :
    PageInv m (summaryHeadBare s st) :=
  PageInv.of_eq h (by simp [summaryHeadBare]) (by simp [summaryHeadBare])

lemma pageInv_summaryBareCb (m : Measure) (s : PdfPageSummary) (t : GenSt)
    (h : PageInv m t) : PageInv m (summaryBareCb m s t) :=
  pageInv_summaryHeadBare s _ (pageInv_drawPageSummaryHeading _ (pageInv_commitPage m t h))

lemma pageInv_summaryFullCb (m : Measure) (s : PdfPageSummary) (t : GenSt)
    (h : PageInv m t) : PageInv m (summaryFullCb m s t) :=
  pageInv_summaryHeadFull m s _ (pageInv_drawPageSummaryHeading _ (pageInv_commitPage m t h))

lemma pageInv_summaryBulletPart (m : Measure) (s : PdfPageSummary) (t : GenSt)
    (h : PageInv m t) : PageInv m (summaryBulletPart m s t) := by
  unfold summaryBulletPart
  by_cases hb : s.bullets ≠ []
  · rw [if_pos hb]
    exact pageInv_drawBulletList m {} _ (fun u hu => pageInv_summaryFullCb m s u hu) s.bullets t h
  · rw [if_neg hb]
    exact pageInv_drawParagraph m _ _ (fun u hu => pageInv_summaryBareCb m s u hu) t _ h

lemma pageInv_summaryKeywordPart (m : Measure) (s : PdfPageSummary) (t : GenSt)
    (h : PageInv m t) : PageInv m (summaryKeywordPart m s t) := by
  unfold summaryKeywordPart
  by_cases hk : s.keywords ≠ []
  · rw [if_pos hk]
    exact pageInv_drawParagraph m _ _ (fun u hu => pageInv_summaryBareCb m s u hu) t _ h
  · rw [if_neg hk]
    exact h

lemma pageInv_summarySkipPart (m : Measure) (s : PdfPageSummary) (t : GenSt)
    (h : PageInv m t) : PageInv m (summarySkipPart m s t) := by
  unfold summarySkipPart
  by_cases hs : s.skipped ∧ strTruthy s.skip_reason
  · rw [if_pos hs]
    exact pageInv_drawParagraph m _ _ (fun u hu => pageInv_summaryBareCb m s u hu) t _ h
  · rw [if_neg hs]
    exact PageInv.of_eq h (by simp) (by simp)

lemma pageInv_summaryStep (m : Measure) (st : GenSt) (s : PdfPageSummary)
    (h : PageInv m st) : PageInv m (summaryStep m st s) := by
  unfold summaryStep
  exact pageInv_summarySkipPart m s _ (pageInv_summaryKeywordPart m s _
    (pageInv_summaryBulletPart m s _ (pageInv_summaryHeadFull m s _
      (pageInv_ensureSpace m st 160 h))))

lemma pageInv_foldl_summaries (m : Measure) :
    ∀ (ss : List PdfPageSummary) (st : GenSt), PageInv m st →
      PageInv m (ss.foldl (summaryStep m) st) := by
  intro ss
  induction ss with
  | nil => intro st h; exact h
  | cons s rest ih =>
    intro st h
    exact ih _ (pageInv_summaryStep m st s h)

lemma pageInv_titleBlock (p : PdfAnalysisPayload) (st : GenSt) (h : PageInv m st) :
    PageInv m (titleBlock p st) :=
  PageInv.of_eq h (by simp [titleBlock]) (by simp [titleBlock])

lemma pageInv_globalSummarySection (m : Measure) (p : PdfAnalysisPayload) (st : GenSt)
    (h : PageInv m st) : PageInv m (globalSummarySection m p st) := by
  unfold globalSummarySection
  have h1 : PageInv m (drawSectionHeading m st "全局摘要") :=
    pageInv_drawSectionHeading m st _ h
  have hcb : ∀ u, PageInv m u → PageInv m (drawSectionHeading m (commitPage m u) "全局摘要") :=
    fun u hu => pageInv_drawSectionHeading m _ _ (pageInv_commitPage m u hu)
  have h2 : PageInv m (if p.globalSummary.bullets ≠ [] then
      drawBulletList m {} (fun u => drawSectionHeading m (commitPage m u) "全局摘要")
        (drawSectionHeading m st "全局摘要") p.globalSummary.bullets
    else drawParagraph m { color := MUTED_COLOR } id
      (drawSectionHeading m st "全局摘要") "尚未提供全局摘要。") := by
    by_cases hb : p.globalSummary.bullets ≠ []
    · rw [if_pos hb]
      exact pageInv_drawBulletList m {} _ hcb p.globalSummary.bullets _ h1
    · rw [if_neg hb]
      exact pageInv_drawParagraph m _ _ (fun u hu => hu) _ _ h1
  exact PageInv.of_eq h2 (by simp) (by simp)

lemma pageInv_expansionCb (m : Measure) (sub : String) (u : GenSt) (h : PageInv m u) :
    PageInv m (expansionCb m sub u) :=
  pageInv_drawSubHeading m _ _ (pageInv_drawSectionHeading m _ _ (pageInv_commitPage m u h))

lemma pageInv_expansionsSection (m : Measure) (p : PdfAnalysisPayload) (st : GenSt)
    (h : PageInv m st) : PageInv m (expansionsSection m p st) := by
  unfold expansionsSection
  apply pageInv_advance
  apply pageInv_drawParagraph m _ _ (fun u hu => pageInv_expansionCb m _ u hu)
  apply pageInv_drawSubHeading
  apply pageInv_drawParagraph m _ _ (fun u hu => pageInv_expansionCb m _ u hu)
  apply pageInv_drawSubHeading
  apply pageInv_drawParagraph m _ _ (fun u hu => pageInv_expansionCb m _ u hu)
  apply pageInv_drawSubHeading
  apply pageInv_drawSectionHeading
  exact h

lemma pageInv_keywordsSection (m : Measure) (p : PdfAnalysisPayload) (st : GenSt)
    (h : PageInv m st) : PageInv m (keywordsSection m p st) := by
  unfold keywordsSection
  have h1 : PageInv m (drawSectionHeading m st "整體關鍵字") :=
    pageInv_drawSectionHeading m st _ h
  by_cases hk : p.aggregatedKeywords ≠ []
  · rw [if_pos hk]
    exact pageInv_drawParagraph m _ _
      (fun u hu => pageInv_drawSectionHeading m _ _ (pageInv_commitPage m u hu)) _ _ h1
  · rw [if_neg hk]
    exact pageInv_drawParagraph m _ _ (fun u hu => hu) _ _ h1

lemma pageInv_drawImageContent (m : Measure) (load : String → Except String Image)
    (st : GenSt) (url : Option String) (h : PageInv m st) :
    PageInv m (drawImageContent m load st url) := by
  match url with
  | none => exact pageInv_drawParagraph m _ _ (fun u hu => hu) _ _ h
  | some u =>
    rw [drawImageContent]
    by_cases hu : u = ""
    · rw [if_pos hu]
      exact pageInv_drawParagraph m _ _ (fun v hv => hv) _ _ h
    · rw [if_neg hu]
      rcases load u with e | img
      · exact pageInv_drawParagraph m _ _ (fun v hv => hv) _ _ h
      · exact PageInv.of_eq h (by simp) (by simp)

lemma pageInv_drawImagePage (m : Measure) (load : String → Except String Image)
    (st : GenSt) (t : String) (url : Option String) (h : PageInv m st) :
    PageInv m (drawImagePage m load st t url) := by
  have h0 : PageInv m (if st.cur.cursorY ≠ MARGIN_TOP then commitPage m st else st) := by
    by_cases hc : st.cur.cursorY ≠ MARGIN_TOP
    · rw [if_pos hc]; exact pageInv_commitPage m st h
    · rw [if_neg hc]; exact h
  exact pageInv_commitPage m _ (pageInv_drawImageContent m load _ url
    (PageInv.of_eq h0 (by simp) (by simp)))

lemma pageInv_layoutRun (m : Measure) (load : String → Except String Image)
    (p : PdfAnalysisPayload) : PageInv m (layoutRun m load p) := by
  rw [paintExtends_layoutRun_from m load p initSt]
  have h0 : PageInv m initSt := ⟨rfl, trivial⟩
  exact pageInv_drawImagePage m load _ _ _
    (pageInv_drawImagePage m load _ _ _
      (pageInv_commitPage m _
        (pageInv_foldl_summaries m p.pageSummaries _
          (pageInv_drawPageSummaryHeading _
            (pageInv_commitPage m _
              (pageInv_keywordsSection m p _
                (pageInv_expansionsSection m p _
                  (pageInv_globalSummarySection m p _
                    (pageInv_titleBlock p _ h0)))))))))

/-! ## Claim C10: assembly and footer stamping -/

/-- A successful assembly reproduces exactly the given canvases, in
order, as the contents of the PDF pages. -/
lemma assemble_inv (env : Env) (pgs : List (List Paint)) (xs : List PdfPage)
    (h : assemble env pgs = Except.ok xs) : xs.map PdfPage.content = pgs := by
  by_cases hp : env.pngOk
  · rw [assemble_ok env hp] at h
    injection h with h
    subst h
    rw [List.map_map]
    exact List.map_id'' (fun c => rfl) pgs
  · cases pgs with
    | nil =>
      rw [assemble] at h
      injection h with h
      subst h
      rfl
    | cons c rest =>
      rw [assemble] at h
      have he : canvasToPngBytes env c = Except.error "無法將畫布轉換為 PNG" := by
        unfold canvasToPngBytes
        rw [if_neg hp]
      rw [he] at h
      exact absurd h (by simp)

/-- The working canvas left after the full layout run is the blank
fresh page allocated by the final `commitPage`. -/
lemma layoutRun_finalCanvas (m : Measure) (load : String → Except String Image)
    (p : PdfAnalysisPayload) :
    (layoutRun m load p).cur.canvas
      = [Paint.rect 0 0 PAGE_WIDTH PAGE_HEIGHT "#ffffff"] := rfl

/-- C10: the assembled PDF has exactly one page per finalized canvas,
in finalization order; every committed canvas carries its footer (page
number) as its last paint, numbered consecutively 1, 2, 3, …; and the
fresh canvas allocated by the final commit is never appended: it stays
the blank white page, held outside the committed list, with the next
page number. -/
theorem footer_stamping (env : Env) (m : Measure) (p : PdfAnalysisPayload)
    (r : GenResult) (h : generateAnalysisPdf env m p = Except.ok r) :
    r.pdf.map PdfPage.content = r.pages ∧
    FootersFrom m 1 r.pages ∧
    r.finalPageNumber = r.pages.length + 1 ∧
    r.finalCanvas = [Paint.rect 0 0 PAGE_WIDTH PAGE_HEIGHT "#ffffff"] := by
  unfold generateAnalysisPdf at h
  by_cases hc : env.canvasOk
  · rw [if_pos hc] at h
    rcases hasm : assemble env (layoutRun m env.loadImage p).pages with e | pdf
    · simp only [hasm] at h
      exact absurd h (by simp)
    · simp only [hasm] at h
      injection h with h
      subst h
      refine ⟨assemble_inv env _ _ hasm, ?_, ?_, ?_⟩
      · exact (pageInv_layoutRun m env.loadImage p).2
      · exact (pageInv_layoutRun m env.loadImage p).1
      · exact layoutRun_finalCanvas m env.loadImage p
  · rw [if_neg hc] at h
    exact absurd h (by simp)

set_option maxRecDepth 100000 in
/-- Witness for C10 at a concrete environment and payload. -/
theorem footer_stamping_witness :
    ∃ r, generateAnalysisPdf envLoadFail mNarrow emptyPayload = Except.ok r ∧
      (r.pdf.map PdfPage.content = r.pages ∧
       FootersFrom mNarrow 1 r.pages ∧
       r.finalPageNumber = r.pages.length + 1 ∧
       r.finalCanvas = [Paint.rect 0 0 PAGE_WIDTH PAGE_HEIGHT "#ffffff"]) :=
  ⟨_, rfl, footer_stamping envLoadFail mNarrow emptyPayload _ rfl⟩

/-! ## Claim C5: no-commit section lemmas and the empty payload -/

lemma noCommit_refl (st : GenSt) : NoCommit st st := ⟨rfl, rfl, [], by rw [List.append_nil]⟩

lemma noCommit_trans {a b c : GenSt} (h1 : NoCommit a b) (h2 : NoCommit b c) :
    NoCommit a c := by
  obtain ⟨p1, n1, t1, c1⟩ := h1
  obtain ⟨p2, n2, t2, c2⟩ := h2
  exact ⟨p2.trans p1, n2.trans n1, t1 ++ t2, by rw [c2, c1, List.append_assoc]⟩

lemma noCommit_paintText (st : GenSt) (f c s : String) (x : ℚ) (y : ℕ) :
    NoCommit st (paintText st f c s x y) := ⟨rfl, rfl, _, rfl⟩

lemma noCommit_advance (st : GenSt) (n : ℕ) : NoCommit st (advance st n) :=
  ⟨rfl, rfl, [], by rw [List.append_nil]; rfl⟩

lemma noCommit_logBlock (st : GenSt) (b : ℚ) : NoCommit st (logBlock st b) :=
  ⟨rfl, rfl, [], by rw [List.append_nil]; rfl⟩

lemma noCommit_paint_step (st : GenSt) (f c s : String) (x : ℚ) (y : ℕ) (b : ℚ) (n : ℕ) :
    NoCommit st (advance (logBlock (paintText st f c s x y) b) n) :=
  ⟨rfl, rfl, [Paint.text f c s x y], rfl⟩

lemma ensureSpace_nc (m : Measure) (st : GenSt) (mh : ℕ)
    (h : st.cur.cursorY + mh ≤ bottomY) : ensureSpace m st mh = st := by
  unfold ensureSpace
  rw [if_neg (by omega)]

lemma drawParaLines_nc (opts : ParaOpts) (cb : GenSt → GenSt) :
    ∀ (lines : List String) (st : GenSt),
      st.cur.cursorY + opts.lineHeight * lines.length ≤ bottomY →
      NoCommit st (drawParaLines opts cb st lines) ∧
      (drawParaLines opts cb st lines).cur.cursorY
        = st.cur.cursorY + opts.lineHeight * lines.length := by
  intro lines
  induction lines with
  | nil =>
    intro st _
    exact ⟨noCommit_refl st, by simp [drawParaLines]⟩
  | cons line rest ih =>
    intro st hfit
    rw [drawParaLines]
    have hck : ¬ st.cur.cursorY + opts.lineHeight > bottomY := by
      simp only [List.length_cons, Nat.mul_succ] at hfit
      omega
    rw [if_neg hck]
    have hfit2 : (advance (logBlock
          (paintText st opts.font opts.color line MARGIN_X st.cur.cursorY)
          ((st.cur.cursorY + opts.lineHeight : ℕ) : ℚ)) opts.lineHeight).cur.cursorY
        + opts.lineHeight * rest.length ≤ bottomY := by
      simp only [advance_cursorY, logBlock_cursorY, paintText_cursorY]
      simp only [List.length_cons, Nat.mul_succ] at hfit
      omega
    rcases ih _ hfit2 with ⟨hnc, hcur⟩
    refine ⟨noCommit_trans (noCommit_paint_step st opts.font opts.color line MARGIN_X
      st.cur.cursorY ((st.cur.cursorY + opts.lineHeight : ℕ) : ℚ) opts.lineHeight) hnc, ?_⟩
    rw [hcur]
    simp only [advance_cursorY, logBlock_cursorY, paintText_cursorY, List.length_cons,
      Nat.mul_succ]
    omega

lemma drawParagraph_nc (m : Measure) (opts : ParaOpts) (cb : GenSt → GenSt)
    (st : GenSt) (text : String)
    (hfit : st.cur.cursorY + opts.lineHeight
      * (wrapLine (m opts.font) text ((PAGE_WIDTH - MARGIN_X * 2 : ℕ) : ℚ)).length ≤ bottomY) :
    NoCommit st (drawParagraph m opts cb st text) ∧
    (drawParagraph m opts cb st text).cur.cursorY
      = st.cur.cursorY + opts.lineHeight
          * (wrapLine (m opts.font) text ((PAGE_WIDTH - MARGIN_X * 2 : ℕ) : ℚ)).length
        + opts.gapAfter := by
  rcases drawParaLines_nc opts cb
      (wrapLine (m opts.font) text ((PAGE_WIDTH - MARGIN_X * 2 : ℕ) : ℚ)) st hfit
    with ⟨hnc, hcur⟩
  refine ⟨noCommit_trans hnc (noCommit_advance _ _), ?_⟩
  show (advance (drawParaLines opts cb st
      (wrapLine (m opts.font) text ((PAGE_WIDTH - MARGIN_X * 2 : ℕ) : ℚ))) opts.gapAfter).cur.cursorY
    = _
  rw [advance_cursorY, hcur]

lemma drawParagraph_nc_bound (m : Measure) (opts : ParaOpts) (cb : GenSt → GenSt)
    (st : GenSt) (text : String) (n lh ga : ℕ)
    (hlh : opts.lineHeight = lh) (hga : opts.gapAfter = ga)
    (h1 : text.data ≠ []) (hnl : '\n' ∉ text.data) (hcr : '\r' ∉ text.data)
    (hn : text.data.length ≤ n)
    (hfit : st.cur.cursorY + lh * n ≤ bottomY) :
    NoCommit st (drawParagraph m opts cb st text) ∧
    (drawParagraph m opts cb st text).cur.cursorY ≤ st.cur.cursorY + lh * n + ga := by
  have hL := wrapLine_length_le (m opts.font) ((PAGE_WIDTH - MARGIN_X * 2 : ℕ) : ℚ)
    text h1 hnl hcr
  have hmul : opts.lineHeight
      * (wrapLine (m opts.font) text ((PAGE_WIDTH - MARGIN_X * 2 : ℕ) : ℚ)).length
      ≤ lh * n := by
    rw [hlh]
    exact Nat.mul_le_mul_left lh (le_trans hL hn)
  rcases drawParagraph_nc m opts cb st text (by omega) with ⟨hnc, hcur⟩
  rw [hga] at hcur
  exact ⟨hnc, by omega⟩

lemma drawSectionHeading_nc (m : Measure) (st : GenSt) (text : String)
    (h : st.cur.cursorY + 80 ≤ bottomY) :
    NoCommit st (drawSectionHeading m st text) ∧
    (drawSectionHeading m st text).cur.cursorY = st.cur.cursorY + 34 := by
  simp only [drawSectionHeading]
  rw [ensureSpace_nc m st 80 h]
  exact ⟨noCommit_trans (noCommit_paintText _ _ _ _ _ _) (noCommit_advance _ _), rfl⟩

lemma drawSubHeading_nc (m : Measure) (st : GenSt) (text : String)
    (h : st.cur.cursorY + 50 ≤ bottomY) :
    NoCommit st (drawSubHeading m st text) ∧
    (drawSubHeading m st text).cur.cursorY = st.cur.cursorY + 28 := by
  simp only [drawSubHeading]
  rw [ensureSpace_nc m st 50 h]
  exact ⟨noCommit_trans (noCommit_paintText _ _ _ _ _ _) (noCommit_advance _ _), rfl⟩

lemma titleBlock_nc (p : PdfAnalysisPayload) (st : GenSt) :
    NoCommit st (titleBlock p st) ∧
    (titleBlock p st).cur.cursorY = st.cur.cursorY + 124 ∧
    Paint.text (buildFont 32 700) HEADING_COLOR "分析報告" ((MARGIN_X : ℕ) : ℚ)
      st.cur.cursorY ∈ (titleBlock p st).cur.canvas := by
  refine ⟨?_, ?_, ?_⟩
  · simp only [titleBlock]
    exact noCommit_trans (noCommit_trans (noCommit_trans (noCommit_trans (noCommit_trans
      (noCommit_paintText _ _ _ _ _ _) (noCommit_advance _ _)) (noCommit_paintText _ _ _ _ _ _))
      (noCommit_advance _ _)) (noCommit_paintText _ _ _ _ _ _)) (noCommit_advance _ _)
  · show st.cur.cursorY + 46 + 38 + 40 = st.cur.cursorY + 124
    omega
  · show _ ∈ ((st.cur.canvas ++ _) ++ _) ++ _
    simp

lemma globalSummarySection_nc (m : Measure) (p : PdfAnalysisPayload) (st : GenSt)
    (hb : p.globalSummary.bullets = [])
    (h : st.cur.cursorY + 312 ≤ bottomY) :
    NoCommit st (globalSummarySection m p st) ∧
    (globalSummarySection m p st).cur.cursorY ≤ st.cur.cursorY + 312 := by
  rcases drawSectionHeading_nc m st "全局摘要" (by omega) with ⟨hnc1, hcur1⟩
  rcases drawParagraph_nc_bound m { color := MUTED_COLOR } id
      (drawSectionHeading m st "全局摘要") "尚未提供全局摘要。" 9 26 12 rfl rfl
      (by decide) (by decide) (by decide) (by decide) (by rw [hcur1]; omega)
    with ⟨hnc2, hcur2⟩
  simp only [globalSummarySection, hb]
  rw [if_neg (by simp)]
  refine ⟨noCommit_trans (noCommit_trans hnc1 hnc2) (noCommit_advance _ _), ?_⟩
  rw [advance_cursorY]
  have hsg : SECTION_GAP = 32 := rfl
  rw [hsg]
  omega

lemma expansionsSection_nc (m : Measure) (p : PdfAnalysisPayload) (st : GenSt)
    (he1 : p.globalSummary.expansions.key_conclusions = "")
    (he2 : p.globalSummary.expansions.core_data = "")
    (he3 : p.globalSummary.expansions.risks_and_actions = "")
    (h : st.cur.cursorY + 506 ≤ bottomY) :
    NoCommit st (expansionsSection m p st) ∧
    (expansionsSection m p st).cur.cursorY ≤ st.cur.cursorY + 506 := by
  rcases drawSectionHeading_nc m st "延伸說明" (by omega) with ⟨hn1, hc1⟩
  rcases drawSubHeading_nc m (drawSectionHeading m st "延伸說明") "關鍵結論"
      (by omega) with ⟨hn2, hc2⟩
  rcases drawParagraph_nc_bound m { gapAfter := 16 } (expansionCb m "關鍵結論")
      (drawSubHeading m (drawSectionHeading m st "延伸說明") "關鍵結論")
      "暫無資料" 4 26 16 rfl rfl (by decide) (by decide) (by decide) (by decide)
      (by omega) with ⟨hn3, hc3⟩
  rcases drawSubHeading_nc m (drawParagraph m { gapAfter := 16 } (expansionCb m "關鍵結論")
      (drawSubHeading m (drawSectionHeading m st "延伸說明") "關鍵結論") "暫無資料")
      "核心資料" (by omega) with ⟨hn4, hc4⟩
  rcases drawParagraph_nc_bound m { gapAfter := 16 } (expansionCb m "核心資料")
      (drawSubHeading m (drawParagraph m { gapAfter := 16 } (expansionCb m "關鍵結論")
        (drawSubHeading m (drawSectionHeading m st "延伸說明") "關鍵結論") "暫無資料") "核心資料")
      "暫無資料" 4 26 16 rfl rfl (by decide) (by decide) (by decide) (by decide)
      (by omega) with ⟨hn5, hc5⟩
  rcases drawSubHeading_nc m (drawParagraph m { gapAfter := 16 } (expansionCb m "核心資料")
      (drawSubHeading m (drawParagraph m { gapAfter := 16 } (expansionCb m "關鍵結論")
        (drawSubHeading m (drawSectionHeading m st "延伸說明") "關鍵結論") "暫無資料") "核心資料")
      "暫無資料") "風險與建議" (by omega) with ⟨hn6, hc6⟩
  rcases drawParagraph_nc_bound m {} (expansionCb m "風險與建議")
      (drawSubHeading m (drawParagraph m { gapAfter := 16 } (expansionCb m "核心資料")
        (drawSubHeading m (drawParagraph m { gapAfter := 16 } (expansionCb m "關鍵結論")
          (drawSubHeading m (drawSectionHeading m st "延伸說明") "關鍵結論") "暫無資料") "核心資料")
        "暫無資料") "風險與建議")
      "暫無資料" 4 26 12 rfl rfl (by decide) (by decide) (by decide) (by decide)
      (by omega) with ⟨hn7, hc7⟩
  have et1 : (if p.globalSummary.expansions.key_conclusions = "" then "暫無資料"
      else p.globalSummary.expansions.key_conclusions) = "暫無資料" := by simp [he1]
  have et2 : (if p.globalSummary.expansions.core_data = "" then "暫無資料"
      else p.globalSummary.expansions.core_data) = "暫無資料" := by simp [he2]
  have et3 : (if p.globalSummary.expansions.risks_and_actions = "" then "暫無資料"
      else p.globalSummary.expansions.risks_and_actions) = "暫無資料" := by simp [he3]
  simp only [expansionsSection]
  rw [et1, et2, et3]
  refine ⟨noCommit_trans (noCommit_trans (noCommit_trans (noCommit_trans (noCommit_trans
    (noCommit_trans (noCommit_trans hn1 hn2) hn3) hn4) hn5) hn6) hn7)
    (noCommit_advance _ _), ?_⟩
  rw [advance_cursorY]
  have hsg : SECTION_GAP = 32 := rfl
  rw [hsg]
  omega

lemma keywordsSection_nc (m : Measure) (p : PdfAnalysisPayload) (st : GenSt)
    (hk : p.aggregatedKeywords = [])
    (h : st.cur.cursorY + 306 ≤ bottomY) :
    NoCommit st (keywordsSection m p st) ∧
    (keywordsSection m p st).cur.cursorY ≤ st.cur.cursorY + 306 := by
  rcases drawSectionHeading_nc m st "整體關鍵字" (by omega) with ⟨hnc1, hcur1⟩
  rcases drawParagraph_nc_bound m { color := MUTED_COLOR } id
      (drawSectionHeading m st "整體關鍵字") "暫無整體關鍵字資料。" 10 26 12 rfl rfl
      (by decide) (by decide) (by decide) (by decide) (by omega)
    with ⟨hnc2, hcur2⟩
  simp only [keywordsSection, hk]
  rw [if_neg (by simp)]
  exact ⟨noCommit_trans hnc1 hnc2, by omega⟩

lemma drawPageSummaryHeading_nc (st : GenSt) :
    (drawPageSummaryHeading st).pages = st.pages ∧
    (drawPageSummaryHeading st).cur.pageNumber = st.cur.pageNumber ∧
    (drawPageSummaryHeading st).cur.cursorY = st.cur.cursorY + 38 ∧
    (drawPageSummaryHeading st).cur.canvas
      = st.cur.canvas ++ [Paint.text (buildFont 24 600) HEADING_COLOR "逐頁重點摘要"
          ((MARGIN_X : ℕ) : ℚ) st.cur.cursorY] :=
  ⟨rfl, rfl, rfl, rfl⟩

lemma drawImagePage_none (m : Measure) (load : String → Except String Image)
    (st : GenSt) (t : String) (hcur : st.cur.cursorY = MARGIN_TOP) :
    ∃ pg, (drawImagePage m load st t none).pages = st.pages ++ [pg] ∧
      Paint.text (buildFont 26 600) HEADING_COLOR t ((MARGIN_X : ℕ) : ℚ) MARGIN_TOP ∈ pg ∧
      (drawImagePage m load st t none).cur.cursorY = MARGIN_TOP ∧
      (drawImagePage m load st t none).cur.pageNumber = st.cur.pageNumber + 1 := by
  simp only [drawImagePage]
  have hA : (if st.cur.cursorY ≠ MARGIN_TOP then commitPage m st else st) = st := by
    rw [hcur]
    simp
  rw [hA, hcur]
  have hcont : drawImageContent m load
      (advance (paintText st (buildFont 26 600) HEADING_COLOR t ((MARGIN_X : ℕ) : ℚ)
        MARGIN_TOP) 40) none
      = drawParagraph m { color := MUTED_COLOR } id
          (advance (paintText st (buildFont 26 600) HEADING_COLOR t ((MARGIN_X : ℕ) : ℚ)
            MARGIN_TOP) 40)
          "尚未取得圖像資料。" := rfl
  rw [hcont]
  rcases drawParagraph_nc_bound m { color := MUTED_COLOR } id
      (advance (paintText st (buildFont 26 600) HEADING_COLOR t ((MARGIN_X : ℕ) : ℚ)
        MARGIN_TOP) 40)
      "尚未取得圖像資料。" 9 26 12 rfl rfl (by decide) (by decide) (by decide) (by decide)
      (by simp only [advance_cursorY, paintText_cursorY, hcur]; decide)
    with ⟨⟨hp, hn, tl, hcv⟩, _⟩
  set C := drawParagraph m { color := MUTED_COLOR } id
    (advance (paintText st (buildFont 26 600) HEADING_COLOR t ((MARGIN_X : ℕ) : ℚ)
      MARGIN_TOP) 40) "尚未取得圖像資料。" with hC
  refine ⟨C.cur.canvas ++ [footerPaint m C.cur.pageNumber], ?_, ?_, rfl, ?_⟩
  · rw [commitPage_pages, hp]
    simp only [advance_pages, paintText_pages]
  · rw [hcv]
    have hbc : (advance (paintText st (buildFont 26 600) HEADING_COLOR t ((MARGIN_X : ℕ) : ℚ)
        MARGIN_TOP) 40).cur.canvas
        = st.cur.canvas ++ [Paint.text (buildFont 26 600) HEADING_COLOR t ((MARGIN_X : ℕ) : ℚ)
            MARGIN_TOP] := rfl
    rw [hbc]
    simp
  · rw [commitPage_pageNumber, hn]
    simp only [advance_pageNumber, paintText_pageNumber]

lemma layoutRun_empty (m : Measure) (load : String → Except String Image)
    (p : PdfAnalysisPayload)
    (hb : p.globalSummary.bullets = [])
    (he1 : p.globalSummary.expansions.key_conclusions = "")
    (he2 : p.globalSummary.expansions.core_data = "")
    (he3 : p.globalSummary.expansions.risks_and_actions = "")
    (hk : p.aggregatedKeywords = [])
    (hs : p.pageSummaries = [])
    (hw : p.wordcloudUrl = none)
    (hmi : p.mindmapImageUrl = none) :
    ∃ p1 p2 p3 p4, (layoutRun m load p).pages = [p1, p2, p3, p4] ∧
      Paint.text (buildFont 32 700) HEADING_COLOR "分析報告" ((MARGIN_X : ℕ) : ℚ)
        MARGIN_TOP ∈ p1 ∧
      Paint.text (buildFont 24 600) HEADING_COLOR "逐頁重點摘要" ((MARGIN_X : ℕ) : ℚ)
        MARGIN_TOP ∈ p2 ∧
      Paint.text (buildFont 26 600) HEADING_COLOR "文字雲" ((MARGIN_X : ℕ) : ℚ)
        MARGIN_TOP ∈ p3 ∧
      Paint.text (buildFont 26 600) HEADING_COLOR "心智圖" ((MARGIN_X : ℕ) : ℚ)
        MARGIN_TOP ∈ p4 := by
  have hbot : bottomY = 1584 := rfl
  have hin80 : initSt.cur.cursorY = 80 := rfl
  obtain ⟨⟨hp1, hn1, t1, hcv1⟩, hcu1, hmem1⟩ := titleBlock_nc p initSt
  obtain ⟨⟨hp2, hn2, t2, hcv2⟩, hcu2⟩ :=
    globalSummarySection_nc m p (titleBlock p initSt) hb (by omega)
  obtain ⟨⟨hp3, hn3, t3, hcv3⟩, hcu3⟩ :=
    expansionsSection_nc m p (globalSummarySection m p (titleBlock p initSt))
      he1 he2 he3 (by omega)
  obtain ⟨⟨hp4, hn4, t4, hcv4⟩, hcu4⟩ :=
    keywordsSection_nc m p
      (expansionsSection m p (globalSummarySection m p (titleBlock p initSt))) hk (by omega)
  rw [paintExtends_layoutRun_from m load p initSt, hs, hw, hmi]
  simp only [List.foldl_nil]
  set A4 := keywordsSection m p
    (expansionsSection m p (globalSummarySection m p (titleBlock p initSt))) with hA4
  set B5 := commitPage m A4 with hB5
  set B6 := drawPageSummaryHeading B5 with hB6
  set B8 := commitPage m B6 with hB8
  obtain ⟨pg3, hpg3, hmw, hcur9, hn9⟩ :=
    drawImagePage_none m load B8 "文字雲" (by rw [hB8]; rfl)
  obtain ⟨pg4, hpg4, hmi4, hcur10, hn10⟩ :=
    drawImagePage_none m load (drawImagePage m load B8 "文字雲" none) "心智圖" hcur9
  refine ⟨A4.cur.canvas ++ [footerPaint m A4.cur.pageNumber],
          B6.cur.canvas ++ [footerPaint m B6.cur.pageNumber], pg3, pg4,
          ?_, ?_, ?_, hmw, hmi4⟩
  · rw [hpg4, hpg3, hB8, commitPage_pages, hB6, (drawPageSummaryHeading_nc B5).1, hB5,
      commitPage_pages, hp4, hp3, hp2, hp1]
    have hinit : initSt.pages = ([] : List (List Paint)) := rfl
    rw [hinit]
    simp
  · rw [hcv4, hcv3, hcv2]
    exact List.mem_append_left _ (List.mem_append_left _ (List.mem_append_left _
      (List.mem_append_left _ hmem1)))
  · rw [hB6, (drawPageSummaryHeading_nc B5).2.2.2]
    have hc5 : B5.cur.canvas = [Paint.rect 0 0 PAGE_WIDTH PAGE_HEIGHT "#ffffff"] := by
      rw [hB5]
      rfl
    have hy5 : B5.cur.cursorY = MARGIN_TOP := by
      rw [hB5]
      rfl
    rw [hc5, hy5]
    simp

/-- C5: for a payload with empty global-summary bullets, empty
expansion fields, an empty aggregated keyword list, zero page
summaries, and both image references absent, generation succeeds (no
rejection) and finalizes exactly four pages: the title page carrying
the report title, one per-page-summary page carrying the 逐頁重點摘要
heading, and one fresh page per trailing image section, each with its
section heading painted at the top margin. -/
theorem empty_payload_min_pages (env : Env) (m : Measure) (p : PdfAnalysisPayload)
    (hc : env.canvasOk = true) (hpng : env.pngOk = true)
    (hb : p.globalSummary.bullets = [])
    (he1 : p.globalSummary.expansions.key_conclusions = "")
    (he2 : p.globalSummary.expansions.core_data = "")
    (he3 : p.globalSummary.expansions.risks_and_actions = "")
    (hk : p.aggregatedKeywords = [])
    (hs : p.pageSummaries = [])
    (hw : p.wordcloudUrl = none)
    (hmi : p.mindmapImageUrl = none) :
    ∃ r, generateAnalysisPdf env m p = Except.ok r ∧
      r.pdf.length = 4 ∧
      ∃ p1 p2 p3 p4, r.pages = [p1, p2, p3, p4] ∧
        Paint.text (buildFont 32 700) HEADING_COLOR "分析報告" ((MARGIN_X : ℕ) : ℚ)
          MARGIN_TOP ∈ p1 ∧
        Paint.text (buildFont 24 600) HEADING_COLOR "逐頁重點摘要" ((MARGIN_X : ℕ) : ℚ)
          MARGIN_TOP ∈ p2 ∧
        Paint.text (buildFont 26 600) HEADING_COLOR "文字雲" ((MARGIN_X : ℕ) : ℚ)
          MARGIN_TOP ∈ p3 ∧
        Paint.text (buildFont 26 600) HEADING_COLOR "心智圖" ((MARGIN_X : ℕ) : ℚ)
          MARGIN_TOP ∈ p4 := by
  obtain ⟨p1, p2, p3, p4, hpages, h1, h2, h3, h4⟩ :=
    layoutRun_empty m env.loadImage p hb he1 he2 he3 hk hs hw hmi
  refine ⟨_, generateAnalysisPdf_ok env m p hc hpng, ?_, p1, p2, p3, p4, hpages,
    h1, h2, h3, h4⟩
  show ((layoutRun m env.loadImage p).pages.map embedPage).length = 4
  rw [List.length_map, hpages]
  rfl

/-- Witness for C5 at the concrete empty payload. -/
theorem empty_payload_min_pages_witness :
    ∃ r, generateAnalysisPdf envLoadFail mNarrow emptyPayload = Except.ok r ∧
      r.pdf.length = 4 ∧
      ∃ p1 p2 p3 p4, r.pages = [p1, p2, p3, p4] ∧
        Paint.text (buildFont 32 700) HEADING_COLOR "分析報告" ((MARGIN_X : ℕ) : ℚ)
          MARGIN_TOP ∈ p1 ∧
        Paint.text (buildFont 24 600) HEADING_COLOR "逐頁重點摘要" ((MARGIN_X : ℕ) : ℚ)
          MARGIN_TOP ∈ p2 ∧
        Paint.text (buildFont 26 600) HEADING_COLOR "文字雲" ((MARGIN_X : ℕ) : ℚ)
          MARGIN_TOP ∈ p3 ∧
        Paint.text (buildFont 26 600) HEADING_COLOR "心智圖" ((MARGIN_X : ℕ) : ℚ)
          MARGIN_TOP ∈ p4 :=
  empty_payload_min_pages envLoadFail mNarrow emptyPayload rfl rfl rfl rfl rfl rfl
    rfl rfl rfl rfl

end AutoNote
